import Mathlib

/-!
A shallow embedding of the `poseidon2` Go package (field arithmetic over the
bn256 scalar field, the Poseidon2 permutation with its deterministically
generated constants, and the sponge hasher with its byte-hashing API),
together with proofs settling the frozen claims about it.

Modelling conventions.  A Go `Fr` value is four little-endian `uint64` limbs;
it is modelled by its integer value, a natural number below `2^256`
(`limbsToNat` maps the limb vectors of the source's constants to that value).
Each limb-chain operation of the source translates to the corresponding
operation on values: a `bits.Add64` carry chain over the four limbs is
exactly 256-bit addition with carry-out `s / 2^256`, a `bits.Sub64` borrow
chain is wrapping subtraction `(x + 2^256 - y) % 2^256` with borrow-out
`if x < y then 1 else 0`, and `cmov(z, x, cond)` with `cond ∈ {0,1}` (the
only values the source ever passes) selects `x` iff `cond = 1`.  The 8-limb
product buffer of `Fr.Mul` is a 512-bit accumulator: the schoolbook
multiplication loop computes the exact product `x * y`, the bit-by-bit
Montgomery loop conditionally adds the modulus and shifts right 256 times
(no step can carry out of limb 7, since the running value never exceeds
`2^512 - r`), and the final conditional subtraction reads the low four limbs,
i.e. the value modulo `2^256`.  Fallible Go signatures are translated to
`Except`.  Byte arrays are lists of naturals below 256.
-/

set_option maxRecDepth 100000

/-- A field element: the integer value of the four little-endian 64-bit limbs. -/
abbrev Fr := Nat

/-- Value of a little-endian 64-bit limb vector (limb 0 least significant). -/
def limbsToNat (l : List Nat) : Nat :=
  l.foldr (fun limb acc => acc * 18446744073709551616 + limb) 0

/-- The limbs of the field modulus `rModulus` exactly as written in the source. -/
def rModulusLimbs : List Nat :=
  [0x43e1f593f0000001, 0x2833e84879b97091, 0xb85045b68181585d, 0x30644e72e131a029]

/-- Field modulus r for the bn256 scalar field. -/
def rModulus : Nat := limbsToNat rModulusLimbs

/-- R = 2^256 mod r (Montgomery radix), limbs as in the source. -/
def montgomeryR : Nat :=
  limbsToNat [0xac96341c4ffffffb, 0x36fc76959f60cd29, 0x666ea36f7879462e, 0x0e0a77c19a07df2f]

/-- R^2 mod r (for conversion to Montgomery form), limbs as in the source. -/
def montgomeryR2 : Nat :=
  limbsToNat [0x1bb8e645ae216da7, 0x53fe3ab1e35c59e3, 0x8c49833d53bb8085, 0x0216d0b17f4e44a5]

/-- Zero returns the additive identity (0) in Montgomery form. -/
def Fr.Zero : Nat := 0

/-- One returns the multiplicative identity (1) in Montgomery form: 1*R mod r = R. -/
def Fr.One : Nat := montgomeryR

/-- One iteration of the bit-by-bit Montgomery reduction loop of `Fr.Mul`:
if the lowest bit is 1 add the modulus, then shift right by one bit. -/
def montStep (t : Nat) : Nat := (if t % 2 = 1 then t + rModulus else t) / 2

/-- `n` iterations of the Montgomery reduction loop. -/
def montLoop : Nat → Nat → Nat
  | 0, t => t
  | n + 1, t => montLoop n (montStep t)

/-- Montgomery multiplication `(x * y * R^(-1)) mod r`: exact 512-bit product,
256 conditional-add-and-shift iterations, low four limbs, and a final
constant-time conditional subtraction (`sub` then `cmov` on `1 - borrow`). -/
def Fr.Mul (x y : Nat) : Nat :=
  let t := montLoop 256 (x * y)
  let z := t % 2 ^ 256
  if z < rModulus then z else (z + 2 ^ 256 - rModulus) % 2 ^ 256

/-- Field addition: 256-bit add with carry-out, then a conditional subtraction
of `r` selected by `carry | (1 - borrow)` where `borrow` is the borrow of
`z - r` (the source's branchless `cmov` on that condition). -/
def Fr.Add (x y : Nat) : Nat :=
  let s := x + y
  let carry := s / 2 ^ 256
  let z := s % 2 ^ 256
  let borrow : Nat := if z < rModulus then 1 else 0
  let temp := (z + 2 ^ 256 - rModulus) % 2 ^ 256
  if carry ||| (1 - borrow) = 1 then temp else z

/-- Field subtraction: wrapping 256-bit subtract with borrow-out, then a
conditional addition of `r` (without reduction) selected by the borrow. -/
def Fr.Sub (x y : Nat) : Nat :=
  let borrow : Nat := if x < y then 1 else 0
  let z := (x + 2 ^ 256 - y) % 2 ^ 256
  let temp := (z + rModulus) % 2 ^ 256
  if borrow = 1 then temp else z

/-- Field negation: zero maps to zero, otherwise the wrapping subtraction
`r - x` (the source ignores the borrow, which wraps when `x > r`). -/
def Fr.Neg (x : Nat) : Nat := if x = 0 then Fr.Zero else (rModulus + 2 ^ 256 - x) % 2 ^ 256

/-- Field squaring, defined as `Mul x x` exactly as in the source. -/
def Fr.Square (x : Nat) : Nat := Fr.Mul x x

/-- The source's `reduce`: one conditional subtraction of `r` (`sub` then
`cmov` on `1 - borrow`), used by `FromBytes` before the Montgomery conversion. -/
def Fr.reduceOnce (v : Nat) : Nat :=
  if v < rModulus then v else (v + 2 ^ 256 - rModulus) % 2 ^ 256

/-- Big-endian integer value of a byte list (the source assembles the same
value from four `binary.BigEndian.Uint64` reads into little-endian limbs). -/
def bytesToNatBE (l : List Nat) : Nat := l.foldl (fun acc b => acc * 256 + b) 0

/-- The `n` big-endian bytes of `v % 256^n` (most significant first); the
source writes them with four `binary.BigEndian.PutUint64` calls. -/
def natToBytesBE : Nat → Nat → List Nat
  | 0, _ => []
  | n + 1, v => natToBytesBE n (v / 256) ++ [v % 256]

/-- FromBytes: interpret 32 bytes as a big-endian integer, apply the one-shot
conditional reduction, then convert into Montgomery form via `Mul` with R^2. -/
def FromBytes (data : List Nat) : Nat :=
  Fr.Mul (Fr.reduceOnce (bytesToNatBE data)) montgomeryR2

/-- ToBytes32: convert out of Montgomery form (`Mul` with the plain value 1)
and write the result as 32 big-endian bytes. -/
def Fr.ToBytes32 (f : Nat) : List Nat := natToBytesBE 32 (Fr.Mul f 1)

/-- FromUint64: 0 and 1 short-circuit to the constants, otherwise convert to
Montgomery form by multiplying with R^2. -/
def FromUint64 (x : Nat) : Nat :=
  if x = 0 then Fr.Zero else if x = 1 then Fr.One else Fr.Mul x montgomeryR2

/-- The precomputed inverse of the Montgomery radix: `rInvNat * 2^256 ≡ 1 (mod r)`
(the characterising equation is proved below). -/
def rInvNat : Nat :=
  9915499612839321149637521777990102151350674507940716049588462388200839649614

/-- The canonical integer a Montgomery-form element represents, `f * R^(-1) mod r`
(what `ToBytes32` serialises).  Spec-side definition used to state claim C6. -/
def Fr.toValue (f : Nat) : Nat := f * rInvNat % rModulus

/- SHA-256 (FIPS 180-4), modelling the Go standard library's
`crypto/sha256.Sum256` used by the constant generation.  Words are naturals
below 2^32. -/

/-- Truncation to a 32-bit word. -/
def w32 (x : Nat) : Nat := x % 4294967296

/-- Right rotation of a 32-bit word. -/
def rotr32 (n x : Nat) : Nat := (x >>> n) ||| w32 (x <<< (32 - n))

def shaBigSigma0 (x : Nat) : Nat := rotr32 2 x ^^^ rotr32 13 x ^^^ rotr32 22 x

def shaBigSigma1 (x : Nat) : Nat := rotr32 6 x ^^^ rotr32 11 x ^^^ rotr32 25 x

def shaSmallSigma0 (x : Nat) : Nat := rotr32 7 x ^^^ rotr32 18 x ^^^ (x >>> 3)

def shaSmallSigma1 (x : Nat) : Nat := rotr32 17 x ^^^ rotr32 19 x ^^^ (x >>> 10)

def shaCh (e f g : Nat) : Nat := (e &&& f) ^^^ ((e ^^^ 4294967295) &&& g)

def shaMaj (a b c : Nat) : Nat := (a &&& b) ^^^ (a &&& c) ^^^ (b &&& c)

/-- The 64 SHA-256 round constants (fractional parts of the cube roots of the
first 64 primes). -/
def shaK : List Nat :=
  [1116352408, 1899447441, 3049323471, 3921009573,
   961987163, 1508970993, 2453635748, 2870763221,
   3624381080, 310598401, 607225278, 1426881987,
   1925078388, 2162078206, 2614888103, 3248222580,
   3835390401, 4022224774, 264347078, 604807628,
   770255983, 1249150122, 1555081692, 1996064986,
   2554220882, 2821834349, 2952996808, 3210313671,
   3336571891, 3584528711, 113926993, 338241895,
   666307205, 773529912, 1294757372, 1396182291,
   1695183700, 1986661051, 2177026350, 2456956037,
   2730485921, 2820302411, 3259730800, 3345764771,
   3516065817, 3600352804, 4094571909, 275423344,
   430227734, 506948616, 659060556, 883997877,
   958139571, 1322822218, 1537002063, 1747873779,
   1955562222, 2024104815, 2227730452, 2361852424,
   2428436474, 2756734187, 3204031479, 3329325298]

/-- The initial SHA-256 state (fractional parts of the square roots of the
first 8 primes). -/
def shaH0 : List Nat :=
  [1779033703, 3144134277, 1013904242, 2773480762,
   1359893119, 2600822924, 528734635, 1541459225]

/-- Working state of the SHA-256 compression function. -/
structure Sha8 where
  a : Nat
  b : Nat
  c : Nat
  d : Nat
  e : Nat
  f : Nat
  g : Nat
  h : Nat

/-- One SHA-256 compression round for the pair (round constant, schedule word). -/
def shaRound (s : Sha8) (kw : Nat × Nat) : Sha8 :=
  let t1 := w32 (s.h + shaBigSigma1 s.e + shaCh s.e s.f s.g + kw.1 + kw.2)
  let t2 := w32 (shaBigSigma0 s.a + shaMaj s.a s.b s.c)
  ⟨w32 (t1 + t2), s.a, s.b, s.c, w32 (s.d + t1), s.e, s.f, s.g⟩

/-- Extend the 16-word schedule by `n` further words. -/
def shaExtend (w : List Nat) : Nat → List Nat
  | 0 => w
  | n + 1 =>
    let w' := shaExtend w n
    let i := w'.length
    w' ++ [w32 (shaSmallSigma1 (w'.getD (i - 2) 0) + w'.getD (i - 7) 0 +
                shaSmallSigma0 (w'.getD (i - 15) 0) + w'.getD (i - 16) 0)]

/-- Compress one 64-byte block into the 8-word chaining state. -/
def shaCompress (hs : List Nat) (block : List Nat) : List Nat :=
  let ws16 := (List.range 16).map (fun i => bytesToNatBE ((block.drop (4 * i)).take 4))
  let ws := shaExtend ws16 48
  let init : Sha8 := ⟨hs.getD 0 0, hs.getD 1 0, hs.getD 2 0, hs.getD 3 0,
                      hs.getD 4 0, hs.getD 5 0, hs.getD 6 0, hs.getD 7 0⟩
  let fin := (shaK.zip ws).foldl shaRound init
  [w32 (hs.getD 0 0 + fin.a), w32 (hs.getD 1 0 + fin.b), w32 (hs.getD 2 0 + fin.c),
   w32 (hs.getD 3 0 + fin.d), w32 (hs.getD 4 0 + fin.e), w32 (hs.getD 5 0 + fin.f),
   w32 (hs.getD 6 0 + fin.g), w32 (hs.getD 7 0 + fin.h)]

/-- SHA-256 padding: 0x80, zeros to 56 mod 64, then the 8-byte bit length. -/
def shaPad (msg : List Nat) : List Nat :=
  let l := msg.length
  let k := (55 + 64 - l % 64) % 64
  msg ++ [128] ++ List.replicate k 0 ++ natToBytesBE 8 (8 * l)

/-- Split into 64-byte blocks (fuelled structural recursion so that the
definition reduces inside the kernel). -/
def chunksOf64 : Nat → List Nat → List (List Nat)
  | 0, _ => []
  | _, [] => []
  | fuel + 1, a :: l => ((a :: l).take 64) :: chunksOf64 fuel ((a :: l).drop 64)

/-- SHA-256 digest (32 bytes) of a byte list. -/
def sha256 (msg : List Nat) : List Nat :=
  let padded := shaPad msg
  let blocks := chunksOf64 padded.length padded
  let hs := blocks.foldl shaCompress shaH0
  hs.flatMap (natToBytesBE 4)

/- The Poseidon2 permutation. -/

/-- Sponge width t = 3. -/
def T : Nat := 3

def FULL_ROUNDS : Nat := 8

def PARTIAL_ROUNDS : Nat := 56

def TOTAL_ROUNDS : Nat := FULL_ROUNDS + PARTIAL_ROUNDS

/-- ASCII bytes of the seed string of the round constants,
"Poseidon2_bn256_r_t3_d5_F8_P56". -/
def poseidonSeed : List Nat :=
  [80, 111, 115, 101, 105, 100, 111, 110, 50, 95, 98, 110, 50, 53, 54, 95,
   114, 95, 116, 51, 95, 100, 53, 95, 70, 56, 95, 80, 53, 54]

/-- ASCII bytes of the seed string of the mixing matrix,
"Poseidon2_MDS_bn256_r_t3". -/
def mdsSeed : List Nat :=
  [80, 111, 115, 101, 105, 100, 111, 110, 50, 95, 77, 68, 83, 95, 98, 110,
   50, 53, 54, 95, 114, 95, 116, 51]

/-- generateConstant: hash the seed followed by the 4-byte big-endian encodings
of (round, pos) with SHA-256 and map the digest into the field. -/
def generateConstant (seed : List Nat) (round pos : Nat) : Nat :=
  FromBytes (sha256 (seed ++ natToBytesBE 4 round ++ natToBytesBE 4 pos))

/-- The round-constant table: full rounds fill all positions, partial rounds
fill position 0 and hold the rest at zero. -/
def roundConstants (round pos : Nat) : Nat :=
  if round < FULL_ROUNDS / 2 ∨ FULL_ROUNDS / 2 + PARTIAL_ROUNDS ≤ round then
    generateConstant poseidonSeed round pos
  else if pos = 0 then generateConstant poseidonSeed round 0
  else Fr.Zero

/-- The mixing-matrix table: a seed-derived element (the seed extended with the
index bytes i, j) plus one, so no entry is zero. -/
def mdsMatrix (i j : Nat) : Nat :=
  Fr.Add (generateConstant (mdsSeed ++ [i, j]) i j) (FromUint64 1)

/-- The permutation state: an ordered triple of field elements (width T = 3). -/
structure St3 where
  x0 : Nat
  x1 : Nat
  x2 : Nat
deriving DecidableEq

/-- The S-box x^5 computed as x * (x^2)^2: two squarings and a multiplication. -/
def sBoxProd (x : Nat) : Nat :=
  let x2 := Fr.Square x
  let x4 := Fr.Square x2
  Fr.Mul x4 x

/-- The linear layer: the dense 3-by-3 matrix-vector product, each row summed
starting from zero exactly as the source's accumulation loop does. -/
def applyMDS (s : St3) : St3 :=
  let row := fun i =>
    Fr.Add (Fr.Add (Fr.Add Fr.Zero (Fr.Mul (mdsMatrix i 0) s.x0))
      (Fr.Mul (mdsMatrix i 1) s.x1)) (Fr.Mul (mdsMatrix i 2) s.x2)
  St3.mk (row 0) (row 1) (row 2)

/-- A full round: add that round's constants to every word (the source's first
loop), apply the S-box to every word (the second loop), then the linear layer;
the per-word passes are independent, so they compose per word. -/
def fullRound (round : Nat) (s : St3) : St3 :=
  applyMDS (St3.mk (sBoxProd (Fr.Add s.x0 (roundConstants round 0)))
    (sBoxProd (Fr.Add s.x1 (roundConstants round 1)))
    (sBoxProd (Fr.Add s.x2 (roundConstants round 2))))

/-- A partial round: add the round constant to word 0 only, apply the S-box to
word 0 only, then the full linear layer. -/
def partialRound (round : Nat) (s : St3) : St3 :=
  applyMDS (St3.mk (sBoxProd (Fr.Add s.x0 (roundConstants round 0))) s.x1 s.x2)

/-- Apply `f` to rounds `start, start+1, ..., start+n-1` in order (the shape of
the source's three `for` loops). -/
def foldRounds (f : Nat → St3 → St3) : Nat → Nat → St3 → St3
  | _, 0, s => s
  | start, n + 1, s => foldRounds f (start + 1) n (f start s)

/-- The full Poseidon2 permutation: the first 4 full rounds, the 56 partial
rounds, then the final 4 full rounds. -/
def ProductionPermutation (s : St3) : St3 :=
  foldRounds fullRound (FULL_ROUNDS / 2 + PARTIAL_ROUNDS) (TOTAL_ROUNDS - (FULL_ROUNDS / 2 + PARTIAL_ROUNDS))
    (foldRounds partialRound (FULL_ROUNDS / 2) PARTIAL_ROUNDS
      (foldRounds fullRound 0 (FULL_ROUNDS / 2) s))

/- The sponge hasher. -/

/-- The sponge state plus the count of elements absorbed in the current block. -/
structure Hasher where
  state : St3
  absorbed : Nat
deriving DecidableEq

/-- Read state word `i` (the source indexes `state[absorbed]`; an index beyond
2 would panic in Go and is unreachable, the catch-all returns word 2). -/
def stGet (s : St3) : Nat → Nat
  | 0 => s.x0
  | 1 => s.x1
  | _ => s.x2

/-- Write state word `i` (same indexing convention as `stGet`). -/
def stSet (s : St3) (i : Nat) (v : Nat) : St3 :=
  match i with
  | 0 => St3.mk v s.x1 s.x2
  | 1 => St3.mk s.x0 v s.x2
  | _ => St3.mk s.x0 s.x1 v

/-- A fresh hasher: all-zero state, nothing absorbed. -/
def NewHasher : Hasher := ⟨St3.mk Fr.Zero Fr.Zero Fr.Zero, 0⟩

/-- Absorb one element: add it into `state[absorbed]`, increment the counter,
and when the rate (2) is reached permute the full state and reset the counter. -/
def Hasher.Absorb (h : Hasher) (e : Nat) : Hasher :=
  let st := stSet h.state h.absorbed (Fr.Add (stGet h.state h.absorbed) e)
  let a := h.absorbed + 1
  if 2 ≤ a then ⟨ProductionPermutation st, 0⟩ else ⟨st, a⟩

/-- Absorb a sequence of elements in order. -/
def Hasher.AbsorbMany (h : Hasher) (es : List Nat) : Hasher :=
  es.foldl Hasher.Absorb h

/-- Squeeze: permute if anything is pending, reset the counter, and return
word 0.  The pair is (returned element, hasher after the mutation). -/
def Hasher.Squeeze (h : Hasher) : Nat × Hasher :=
  if 0 < h.absorbed then
    let st := ProductionPermutation h.state
    (st.x0, ⟨st, 0⟩)
  else (h.state.x0, h)

/-- Finalize: permute if anything is pending and return word 0.  Unlike
`Squeeze`, the source does not reset the `absorbed` counter here. -/
def Hasher.Finalize (h : Hasher) : Nat × Hasher :=
  if 0 < h.absorbed then
    let st := ProductionPermutation h.state
    (st.x0, ⟨st, h.absorbed⟩)
  else (h.state.x0, h)

/- The public API (api.go). -/

/-- Hash of a sequence of field elements: the empty input finalizes a fresh
hasher directly, otherwise absorb all elements then finalize. -/
def Hash (elements : List Nat) : Nat :=
  if elements.length = 0 then (Hasher.Finalize NewHasher).1
  else (Hasher.Finalize (Hasher.AbsorbMany NewHasher elements)).1

/-- Two-to-one compression: absorb `a` then `b`, finalize. -/
def Compress2 (a b : Nat) : Nat :=
  (Hasher.Finalize (Hasher.Absorb (Hasher.Absorb NewHasher a) b)).1

/-- Split a byte list into 31-byte groups (the source's `for i += 31` loop),
with fuel so the definition reduces structurally. -/
def chunksOf31 : Nat → List Nat → List (List Nat)
  | 0, _ => []
  | _, [] => []
  | fuel + 1, a :: l => ((a :: l).take 31) :: chunksOf31 fuel ((a :: l).drop 31)

/-- Absorb one byte chunk: each 31-byte group is right-aligned into 32 bytes
(left zero padding), converted by `FromBytes`, and absorbed.  An empty chunk
contributes nothing (the source's `continue`). -/
def absorbChunk (h : Hasher) (chunk : List Nat) : Hasher :=
  (chunksOf31 chunk.length chunk).foldl
    (fun acc grp => acc.Absorb (FromBytes (List.replicate (32 - grp.length) 0 ++ grp))) h

/-- HashBytes: absorb the domain tag, then every chunk, finalize, serialise.
The Go signature carries an error channel but the only return is `(bytes, nil)`. -/
def HashBytes (tag : Nat) (data : List (List Nat)) : Except Unit (List Nat) :=
  let h := Hasher.Absorb NewHasher (FromUint64 tag)
  let h2 := data.foldl absorbChunk h
  Except.ok (Fr.ToBytes32 (Hasher.Finalize h2).1)

/-- HashMany: absorb the domain tag first, then the elements, finalize. -/
def HashMany (tag : Nat) (elements : List Nat) : Nat :=
  (Hasher.Finalize (Hasher.AbsorbMany (Hasher.Absorb NewHasher (FromUint64 tag)) elements)).1

/- Claim-side definitions (written from the spec's words, for C5): the round
schedule as an explicit list of round kinds, each entry applying the linear
layer exactly once. -/

/-- The kind of one round of the schedule. -/
inductive RoundKind
  | fullRnd
  | partialRnd
deriving DecidableEq

/-- The spec's schedule: 4 full rounds, 56 partial rounds, 4 full rounds. -/
def roundSchedule : List RoundKind :=
  List.replicate 4 RoundKind.fullRnd ++ List.replicate 56 RoundKind.partialRnd ++
    List.replicate 4 RoundKind.fullRnd

/-- The nonlinear part of a round of kind `k`: a full round transforms every
word, a partial round transforms word 0 only and leaves words 1 and 2 exactly
unchanged. -/
def nonlinearPart (k : RoundKind) (round : Nat) (s : St3) : St3 :=
  match k with
  | RoundKind.fullRnd =>
      St3.mk (sBoxProd (Fr.Add s.x0 (roundConstants round 0)))
        (sBoxProd (Fr.Add s.x1 (roundConstants round 1)))
        (sBoxProd (Fr.Add s.x2 (roundConstants round 2)))
  | RoundKind.partialRnd =>
      St3.mk (sBoxProd (Fr.Add s.x0 (roundConstants round 0))) s.x1 s.x2

/-- Run a schedule from round index `round`: each entry is one nonlinear layer
followed by exactly one application of the mixing layer. -/
def applySchedule : List RoundKind → Nat → St3 → St3
  | [], _, s => s
  | k :: ks, round, s => applySchedule ks (round + 1) (applyMDS (nonlinearPart k round s))

/- Proof-side executable characterisations (each proved equal to the source
embedding above, on canonical inputs): multiplication as a single modular
product with the precomputed radix inverse, addition as a plain modular sum.
They exist so that concrete permutation values can be evaluated by the kernel
without unrolling the 256-step Montgomery loop, and carry no independent
authority - every claim is stated over the source definitions. -/

def fMul (x y : Nat) : Nat := x * y * rInvNat % rModulus

def fAdd (x y : Nat) : Nat := (x + y) % rModulus

def fSbox (x : Nat) : Nat :=
  let x2 := fMul x x
  let x4 := fMul x2 x2
  fMul x4 x

def fReduce (v : Nat) : Nat := if v < rModulus then v else v - rModulus

def fFromBytes (data : List Nat) : Nat := fMul (fReduce (bytesToNatBE data)) montgomeryR2

def fFromUint64 (x : Nat) : Nat :=
  if x = 0 then 0 else if x = 1 then montgomeryR else fMul x montgomeryR2

def fGenerateConstant (seed : List Nat) (round pos : Nat) : Nat :=
  fFromBytes (sha256 (seed ++ natToBytesBE 4 round ++ natToBytesBE 4 pos))

def fRoundConstants (round pos : Nat) : Nat :=
  if round < FULL_ROUNDS / 2 ∨ FULL_ROUNDS / 2 + PARTIAL_ROUNDS ≤ round then
    fGenerateConstant poseidonSeed round pos
  else if pos = 0 then fGenerateConstant poseidonSeed round 0
  else 0

def fMdsMatrix (i j : Nat) : Nat :=
  fAdd (fGenerateConstant (mdsSeed ++ [i, j]) i j) (fFromUint64 1)

def fApplyMDS (s : St3) : St3 :=
  let row := fun i =>
    fAdd (fAdd (fAdd 0 (fMul (fMdsMatrix i 0) s.x0)) (fMul (fMdsMatrix i 1) s.x1))
      (fMul (fMdsMatrix i 2) s.x2)
  St3.mk (row 0) (row 1) (row 2)

def fFullRound (round : Nat) (s : St3) : St3 :=
  fApplyMDS (St3.mk (fSbox (fAdd s.x0 (fRoundConstants round 0)))
    (fSbox (fAdd s.x1 (fRoundConstants round 1))) (fSbox (fAdd s.x2 (fRoundConstants round 2))))

def fPartialRound (round : Nat) (s : St3) : St3 :=
  fApplyMDS (St3.mk (fSbox (fAdd s.x0 (fRoundConstants round 0))) s.x1 s.x2)

def fPerm (s : St3) : St3 :=
  foldRounds fFullRound 60 4 (foldRounds fPartialRound 4 56 (foldRounds fFullRound 0 4 s))

/-- Canonicity of a permutation state: every word is strictly below the modulus. -/
def StCanon (s : St3) : Prop := s.x0 < rModulus ∧ s.x1 < rModulus ∧ s.x2 < rModulus

/- Proof-side literal tables: the 64 x 3 round-constant table and the 3 x 3
mixing matrix, each entry the evaluated value of the seed-derived generator
(proved entry by entry below).  They let concrete permutation values be
computed without re-running SHA-256 inside every round. -/

def rcTable : List (List Nat) :=
  [[10343299190937270518976993856749591176791147399909763038982571266818259223421,
    1356210040067302352686732993589092281088183071026720588641768233577469724829,
    16569656822020301255789490433175450668974784303701452419833827331181559531781],
   [16937536688536171834797425294360987800623482360173968997802078089307291817633,
    6650474365369621887814490815627750856594337070393932688272662015865729675334,
    17362530304695543135176097668065283492056686222755961311564770033977147777707],
   [16561830944857165070005068526064487326048596530895578916001392917271058142998,
    17945628294130077245618265908397485110628549338661324550300787943326051116734,
    12905612563419846482175015510223379542963722454495386303317899833695536505523],
   [18308650260704132160308370189425404276852270914155914951304362811887162177632,
    10956611263988872620951127710390148786705354823555088033353810345755434372055,
    19903535259776313640375741833162494155841170383937963839545362240262958072968],
   [6700391471061674098160792108772753095256626144244891722718058636689709946640,
    0,
    0],
   [11501086323296734870344489292510559923957495708936080196479618164929755172501,
    0,
    0],
   [8848537473658824459010806127167975945476945894397092789046446202246138449261,
    0,
    0],
   [19412970289112773338066031444136288562007259777429995793029594653840058841462,
    0,
    0],
   [8542115689686092085522784121329871984814439398741751864037572203262199407783,
    0,
    0],
   [972488939871989742999874298839576302068079151664135943600500372184946291106,
    0,
    0],
   [17854245055628390915575064566439567928938818994083894677860483525826030760065,
    0,
    0],
   [10601010915693968618430190998411621258717287189343229811268259994193674223071,
    0,
    0],
   [18994105549146023229101342731932681965635656915010045518629486773442106527176,
    0,
    0],
   [2696111094567697574657131690513758221256298823117851267587415146335699517103,
    0,
    0],
   [19547210713544856628121183526911093658564527216293486928215582113092617139519,
    0,
    0],
   [18224906564945889406374667738052673897361526018510262585733828396232885377680,
    0,
    0],
   [4848657558377515130131756131230833804298955772408795028353960803668470060036,
    0,
    0],
   [10110143979077366280602286477019488237503529867222965331479114595821627978772,
    0,
    0],
   [488140381340493408847886752029672092137140086784705286513286546307790361667,
    0,
    0],
   [6135290757047907811978512219914148649686380142302465088685339890500004293657,
    0,
    0],
   [805961244187433804369042220963928015260863904726163741171385188065452182825,
    0,
    0],
   [140731099962611743174367587402698978709058869923318807842023671680894931724,
    0,
    0],
   [801297461171594746113517859705556843597158572084680960739715681579513799922,
    0,
    0],
   [2572768067745812994818243494410290913805168872798704869370774032549956865494,
    0,
    0],
   [14038149756567455707051001517124120617533943296846972077347948082921522922187,
    0,
    0],
   [2545668098621714423196045641583244417023846950804018719525960646736264445253,
    0,
    0],
   [14807077227653945412887913708241103882921075452031255589719450522650487546765,
    0,
    0],
   [7099492323534116639872835963629076243656703311412306480665683698790366621592,
    0,
    0],
   [20637676594030675373900266501860963265101093949174201342420764871757230590895,
    0,
    0],
   [18996289021427460757798469926267288491915728059468722375009714405004219558480,
    0,
    0],
   [4690631248581368127991375228696386070827265408326959580195518442173567458249,
    0,
    0],
   [13702713479443333349767239224116743606887810844755749377687185474945336893560,
    0,
    0],
   [18532722704431232383695378302457968037440517650598388257911505335670893504032,
    0,
    0],
   [1890265774686460661456486740650751072157793020756023454841052461605744782952,
    0,
    0],
   [20596890659384181309671199083891724549685085635000842354810995926665288434694,
    0,
    0],
   [1564651251418692504680194940888211351751793210515785607037298483263071242095,
    0,
    0],
   [11084614011564454371411570787023707250346740364034711552693131553283769568465,
    0,
    0],
   [8059112565724873548967282983243587446471914091756700812394629630869022430441,
    0,
    0],
   [14016583044936064799732582643025251875548494281633636250902551372664456242530,
    0,
    0],
   [17437125251481875286133333989812723183110466303164375243861948356009815868565,
    0,
    0],
   [6093729034465474733259608784503834995767470372654602593438195201214158528215,
    0,
    0],
   [21816880247022040252162250911326488154685982533395510971487009929189754607016,
    0,
    0],
   [15315609084796022005125484718787925176010973729914633723010615580815959266107,
    0,
    0],
   [16144844488139015047583873577801658407563226642304602081897735419773923002636,
    0,
    0],
   [12118655392141815360469930059952108788944508886562143596000863229680040268941,
    0,
    0],
   [18595226548170550402689505099161625846932216775043144544482731980444858529748,
    0,
    0],
   [14103965468776984717042812835053648482298814477008611814938860370113216262483,
    0,
    0],
   [3854555714671731062222766566696525414977282866713485575612045358582464046694,
    0,
    0],
   [19558581357716303156365542777125086887413739806607656025605700065866144180391,
    0,
    0],
   [15663118552903740483249221185302595221421332837199217809299050416089282398656,
    0,
    0],
   [21040951238822604732947380522310099666266504852914041919623040755923787643371,
    0,
    0],
   [8417374226957560912561601897512617227411768532398206667708822700211724385576,
    0,
    0],
   [808360300685093107210245852881270576569147021811483137185777508192692578779,
    0,
    0],
   [13601180990828507826641990816840125441775147915112224377402172071525451335328,
    0,
    0],
   [7604072416386152050150671103246887040137947108350393160150236518111850258099,
    0,
    0],
   [13913731964758520765830160151036996622573737451866306018766451020922512507582,
    0,
    0],
   [14688844682401856924207552454449559050784213151579831471308721690680884291254,
    0,
    0],
   [15586419980471738387692311519102428021955443204836618626311501283317117321193,
    0,
    0],
   [1312322357924992153727741655867460641238130216043331981677062551167190654956,
    0,
    0],
   [6177889668913029664525236863193350759992447481655418774586832409842150768253,
    0,
    0],
   [19375345721529532073317350537551134798166541195792488416703278241737641187427,
    8104184187457756634836504557765044473311572786562050815102409069389341481289,
    17329010271647852989345772755657020074069301031080729366116579905146363861725],
   [5033064148591797710875348856031619418411241656127608572914995271396706322368,
    20107352332544137330697895260141385455848270820704034367284190153033075978591,
    2022944864088536965690602418679983461791126628665617599955050461438013539871],
   [11248188959111723947106431584025624376362721449463046347998610503470294400769,
    7658333084250261323485244309157001133220739210668730808214883999313098073323,
    19174858741169786684464721967248422408554353045447730695627802196852528850714],
   [18148255394065773045280639569256066091086196605545638594065744035110400382602,
    20092046872936745660071767619430156841499777818900344593077483434315852849404,
    3518792935796442471625033207771894752045831551447617149640382907093390187695]]

def mdsTable : List (List Nat) :=
  [[5516937254400746320369683299214716351130225105224202998668117100179406690927,
    18568847167614355476171866558599770603442810189923672581320242428175620405584,
    3445232611091754348352307736103856412385365669314420417803223097414768936430],
   [20506895224124122446167074927367625226995170707063964749707516862956570731152,
    11174360759871758528139545780432388614225798242683058122414982208855751469566,
    7854795067977888852330578964792090254975181076578833898200967344491941722976],
   [19499271988285948114763321318595399280945688446275159968511546501585780846706,
    16132606356410113411441695160486586654072002829891171364779289718335296313755,
    853229160231154354372376166701315108955227837318847155763143284266113703955]]

def gRC (r p : Nat) : Nat := (rcTable.getD r []).getD p 0

def gMds (i j : Nat) : Nat := (mdsTable.getD i []).getD j 0

def gApplyMDS (s : St3) : St3 :=
  let row := fun i =>
    fAdd (fAdd (fAdd 0 (fMul (gMds i 0) s.x0)) (fMul (gMds i 1) s.x1))
      (fMul (gMds i 2) s.x2)
  St3.mk (row 0) (row 1) (row 2)

def gFullRound (round : Nat) (s : St3) : St3 :=
  gApplyMDS (St3.mk (fSbox (fAdd s.x0 (gRC round 0)))
    (fSbox (fAdd s.x1 (gRC round 1))) (fSbox (fAdd s.x2 (gRC round 2))))

def gPartialRound (round : Nat) (s : St3) : St3 :=
  gApplyMDS (St3.mk (fSbox (fAdd s.x0 (gRC round 0))) s.x1 s.x2)

def gPerm (s : St3) : St3 :=
  foldRounds gFullRound 60 4 (foldRounds gPartialRound 4 56 (foldRounds gFullRound 0 4 s))


/- Facts about the numeric constants, all by kernel computation. -/

theorem rModulus_val :
    rModulus = 21888242871839275222246405745257275088548364400416034343698204186575808495617 := by
  decide

theorem rModulus_pos : 0 < rModulus := by decide

theorem rModulus_odd : rModulus % 2 = 1 := by decide

theorem two_rModulus_lt : 2 * rModulus < 2 ^ 256 := by decide

theorem rModulus_lt_pow : rModulus < 2 ^ 256 := by decide

theorem montgomeryR_lt : montgomeryR < rModulus := by decide

theorem montgomeryR2_lt : montgomeryR2 < rModulus := by decide

theorem radix_mul_rInv : 2 ^ 256 * rInvNat % rModulus = 1 := by decide

theorem r2_mul_rInv_sq : montgomeryR2 * rInvNat * rInvNat % rModulus = 1 := by decide

/- The bit-by-bit Montgomery reduction loop: each step halves modulo r, so n
steps divide by 2^n modulo r; and each step shrinks the bound, so 256 steps
bring any value below r * 2^256 + r under 2r. -/

theorem montStep_mul_two (t : Nat) : montStep t * 2 ≡ t [MOD rModulus] := by
  unfold montStep
  by_cases h : t % 2 = 1
  · rw [if_pos h]
    have h2 : 2 ∣ (t + rModulus) := by have := rModulus_odd; omega
    rw [Nat.div_mul_cancel h2]
    exact Nat.add_mod_right t rModulus
  · rw [if_neg h]
    have h0 : t % 2 = 0 := by omega
    rw [Nat.div_mul_cancel (Nat.dvd_of_mod_eq_zero h0)]

theorem montLoop_mul_pow (n : Nat) : ∀ t, montLoop n t * 2 ^ n ≡ t [MOD rModulus] := by
  induction n with
  | zero => intro t; simpa [montLoop] using Nat.ModEq.refl t
  | succ n ih =>
    intro t
    show montLoop n (montStep t) * 2 ^ (n + 1) ≡ t [MOD rModulus]
    calc montLoop n (montStep t) * 2 ^ (n + 1)
        = montLoop n (montStep t) * 2 ^ n * 2 := by ring
      _ ≡ montStep t * 2 [MOD rModulus] := (ih (montStep t)).mul_right 2
      _ ≡ t [MOD rModulus] := montStep_mul_two t

theorem montStep_lt {n t : Nat} (h : t < rModulus * 2 ^ (n + 1) + rModulus) :
    montStep t < rModulus * 2 ^ n + rModulus := by
  have hle : montStep t ≤ (t + rModulus) / 2 := by
    unfold montStep
    split
    · exact le_refl _
    · exact Nat.div_le_div_right (by omega)
  have hp : rModulus * 2 ^ (n + 1) = rModulus * 2 ^ n * 2 := by ring
  have h2 : (t + rModulus) / 2 < rModulus * 2 ^ n + rModulus := by
    rw [Nat.div_lt_iff_lt_mul (by norm_num : (0 : Nat) < 2)]
    omega
  omega

theorem montLoop_lt (n : Nat) : ∀ t, t < rModulus * 2 ^ n + rModulus →
    montLoop n t < 2 * rModulus := by
  induction n with
  | zero =>
    intro t h
    simp only [montLoop]
    simp only [pow_zero, mul_one] at h
    omega
  | succ n ih =>
    intro t h
    exact ih (montStep t) (montStep_lt h)

/-- The characterisation of `Fr.Mul`: below the modulus, and congruent to the
product divided by the Montgomery radix. -/
theorem Fr.Mul_lt_and_cong (x y : Nat) (hxy : x * y < rModulus * 2 ^ 256) :
    Fr.Mul x y < rModulus ∧ Fr.Mul x y * 2 ^ 256 ≡ x * y [MOD rModulus] := by
  have hb : montLoop 256 (x * y) < 2 * rModulus :=
    montLoop_lt 256 (x * y) (by omega)
  have h2r : 2 * rModulus < 2 ^ 256 := two_rModulus_lt
  have hcong := montLoop_mul_pow 256 (x * y)
  simp only [Fr.Mul]
  rw [Nat.mod_eq_of_lt (show montLoop 256 (x * y) < 2 ^ 256 by omega)]
  by_cases hlt : montLoop 256 (x * y) < rModulus
  · rw [if_pos hlt]
    exact ⟨hlt, hcong⟩
  · rw [if_neg hlt]
    have hge : rModulus ≤ montLoop 256 (x * y) := Nat.le_of_not_lt hlt
    have h1 : (montLoop 256 (x * y) + 2 ^ 256 - rModulus) % 2 ^ 256 =
        montLoop 256 (x * y) - rModulus := by
      have e1 : montLoop 256 (x * y) + 2 ^ 256 - rModulus =
          2 ^ 256 + (montLoop 256 (x * y) - rModulus) := by omega
      rw [e1, Nat.add_mod_left, Nat.mod_eq_of_lt (by omega)]
    rw [h1]
    refine ⟨by omega, ?_⟩
    have hsub : montLoop 256 (x * y) - rModulus ≡ montLoop 256 (x * y) [MOD rModulus] := by
      have hh : montLoop 256 (x * y) - rModulus + rModulus = montLoop 256 (x * y) := by omega
      calc montLoop 256 (x * y) - rModulus
          ≡ montLoop 256 (x * y) - rModulus + rModulus [MOD rModulus] :=
            (Nat.add_mod_right _ _).symm
        _ = montLoop 256 (x * y) := hh
    exact (hsub.mul_right _).trans hcong

theorem mul_lt_radix_bound {x y : Nat} (hx : x < 2 ^ 256) (hy : y < rModulus) :
    x * y < rModulus * 2 ^ 256 := by
  have h1 : x * y ≤ x * rModulus := Nat.mul_le_mul_left x (le_of_lt hy)
  have h2 : x * rModulus < 2 ^ 256 * rModulus :=
    (Nat.mul_lt_mul_right rModulus_pos).mpr hx
  calc x * y ≤ x * rModulus := h1
    _ < 2 ^ 256 * rModulus := h2
    _ = rModulus * 2 ^ 256 := Nat.mul_comm _ _

theorem Fr.Mul_lt {x y : Nat} (hx : x < 2 ^ 256) (hy : y < rModulus) :
    Fr.Mul x y < rModulus :=
  (Fr.Mul_lt_and_cong x y (mul_lt_radix_bound hx hy)).1

/-- On inputs within the representation (and a canonical right operand),
`Fr.Mul` is exactly the modular product with the radix inverse. -/
theorem Fr.Mul_eq_fMul {x y : Nat} (hx : x < 2 ^ 256) (hy : y < rModulus) :
    Fr.Mul x y = fMul x y := by
  obtain ⟨hlt, hcong⟩ := Fr.Mul_lt_and_cong x y (mul_lt_radix_bound hx hy)
  have key : 2 ^ 256 * rInvNat ≡ 1 [MOD rModulus] := by
    show 2 ^ 256 * rInvNat % rModulus = 1 % rModulus
    rw [radix_mul_rInv]
    exact (Nat.mod_eq_of_lt (by decide : 1 < rModulus)).symm
  have h3 : Fr.Mul x y ≡ x * y * rInvNat [MOD rModulus] := by
    calc Fr.Mul x y = Fr.Mul x y * 1 := (mul_one _).symm
      _ ≡ Fr.Mul x y * (2 ^ 256 * rInvNat) [MOD rModulus] := (Nat.ModEq.mul_left _ key).symm
      _ = Fr.Mul x y * 2 ^ 256 * rInvNat := by ring
      _ ≡ x * y * rInvNat [MOD rModulus] := hcong.mul_right _
  show Fr.Mul x y = x * y * rInvNat % rModulus
  rw [← Nat.mod_eq_of_lt hlt]
  exact h3

/- Closed-form behaviour of the linear field operations on canonical inputs. -/

theorem fAdd_lt (x y : Nat) : fAdd x y < rModulus := Nat.mod_lt _ rModulus_pos

theorem fMul_lt (x y : Nat) : fMul x y < rModulus := Nat.mod_lt _ rModulus_pos

theorem fSbox_lt (x : Nat) : fSbox x < rModulus := fMul_lt _ _

theorem Fr.Add_eq_fAdd (x y : Nat) (hx : x < rModulus) (hy : y < rModulus) :
    Fr.Add x y = fAdd x y := by
  have h2r : 2 * rModulus < 2 ^ 256 := two_rModulus_lt
  have hs : x + y < 2 ^ 256 := by omega
  simp only [Fr.Add, fAdd]
  rw [Nat.div_eq_of_lt hs, Nat.mod_eq_of_lt hs]
  by_cases hlt : x + y < rModulus
  · rw [if_pos hlt, if_neg (by decide : ¬((0 : Nat) ||| (1 - 1) = 1))]
    exact (Nat.mod_eq_of_lt hlt).symm
  · rw [if_neg hlt, if_pos (by decide : (0 : Nat) ||| (1 - 0) = 1)]
    have hge : rModulus ≤ x + y := Nat.le_of_not_lt hlt
    have e1 : x + y + 2 ^ 256 - rModulus = 2 ^ 256 + (x + y - rModulus) := by omega
    rw [e1, Nat.add_mod_left, Nat.mod_eq_of_lt (by omega)]
    rw [Nat.mod_eq_sub_mod hge, Nat.mod_eq_of_lt (by omega)]

theorem Fr.Add_lt (x y : Nat) (hx : x < rModulus) (hy : y < rModulus) :
    Fr.Add x y < rModulus := by
  rw [Fr.Add_eq_fAdd x y hx hy]; exact fAdd_lt x y

theorem Fr.Add_zero_right (x : Nat) (hx : x < rModulus) : Fr.Add x Fr.Zero = x := by
  rw [Fr.Add_eq_fAdd x Fr.Zero hx (by exact rModulus_pos)]
  show (x + 0) % rModulus = x
  rw [Nat.add_zero, Nat.mod_eq_of_lt hx]

theorem Fr.Sub_lt (x y : Nat) (hx : x < rModulus) (hy : y < rModulus) :
    Fr.Sub x y < rModulus := by
  have h2r : 2 * rModulus < 2 ^ 256 := two_rModulus_lt
  simp only [Fr.Sub]
  by_cases hlt : x < y
  · rw [if_pos hlt, if_pos rfl]
    rw [Nat.mod_eq_of_lt (show x + 2 ^ 256 - y < 2 ^ 256 by omega)]
    have e1 : x + 2 ^ 256 - y + rModulus = 2 ^ 256 + (x + rModulus - y) := by omega
    rw [e1, Nat.add_mod_left, Nat.mod_eq_of_lt (by omega)]
    omega
  · rw [if_neg hlt, if_neg (by decide : ¬((0 : Nat) = 1))]
    have hge : y ≤ x := Nat.le_of_not_lt hlt
    have e1 : x + 2 ^ 256 - y = 2 ^ 256 + (x - y) := by omega
    rw [e1, Nat.add_mod_left, Nat.mod_eq_of_lt (by omega)]
    omega

theorem Fr.Neg_lt (x : Nat) (hx : x < rModulus) : Fr.Neg x < rModulus := by
  have h2r : 2 * rModulus < 2 ^ 256 := two_rModulus_lt
  simp only [Fr.Neg, Fr.Zero]
  by_cases h0 : x = 0
  · rw [if_pos h0]; exact rModulus_pos
  · rw [if_neg h0]
    have e1 : rModulus + 2 ^ 256 - x = 2 ^ 256 + (rModulus - x) := by omega
    rw [e1, Nat.add_mod_left, Nat.mod_eq_of_lt (by omega)]
    omega

theorem Fr.Square_lt (x : Nat) (hx : x < rModulus) : Fr.Square x < rModulus := by
  unfold Fr.Square
  exact Fr.Mul_lt (lt_trans hx rModulus_lt_pow) hx

/- Byte-conversion lemmas. -/

theorem bytesToNatBE_foldl_shift (l : List Nat) :
    ∀ a : Nat, l.foldl (fun acc b => acc * 256 + b) a =
      a * 256 ^ l.length + l.foldl (fun acc b => acc * 256 + b) 0 := by
  induction l with
  | nil => intro a; simp
  | cons b t ih =>
    intro a
    simp only [List.foldl_cons, List.length_cons]
    rw [ih (a * 256 + b), ih ((0 : Nat) * 256 + b)]
    ring

theorem bytesToNatBE_lt (l : List Nat) (h : ∀ b ∈ l, b < 256) :
    bytesToNatBE l < 256 ^ l.length := by
  induction l with
  | nil => simp [bytesToNatBE]
  | cons b t ih =>
    have hb : b < 256 := h b (List.mem_cons_self b t)
    have ht : bytesToNatBE t < 256 ^ t.length :=
      ih (fun x hx => h x (List.mem_cons_of_mem _ hx))
    simp only [bytesToNatBE, List.foldl_cons, List.length_cons] at *
    rw [bytesToNatBE_foldl_shift t ((0 : Nat) * 256 + b)]
    simp only [Nat.zero_mul, Nat.zero_add]
    have h1 : b * 256 ^ t.length ≤ 255 * 256 ^ t.length :=
      Nat.mul_le_mul_right _ (by omega)
    have hp : (256 : Nat) ^ (t.length + 1) = 256 ^ t.length * 256 := pow_succ 256 t.length
    omega

theorem natToBytesBE_length (n : Nat) : ∀ v, (natToBytesBE n v).length = n := by
  induction n with
  | zero => intro v; rfl
  | succ n ih => intro v; simp [natToBytesBE, ih]

theorem natToBytesBE_mem_lt (n : Nat) : ∀ v, ∀ b ∈ natToBytesBE n v, b < 256 := by
  induction n with
  | zero => intro v b hb; simp [natToBytesBE] at hb
  | succ n ih =>
    intro v b hb
    simp only [natToBytesBE, List.mem_append, List.mem_singleton] at hb
    rcases hb with hb | hb
    · exact ih _ b hb
    · subst hb; exact Nat.mod_lt _ (by norm_num)

theorem bytesToNatBE_natToBytesBE (n : Nat) : ∀ v, bytesToNatBE (natToBytesBE n v) = v % 256 ^ n := by
  induction n with
  | zero => intro v; simp [natToBytesBE, bytesToNatBE, Nat.mod_one]
  | succ n ih =>
    intro v
    simp only [natToBytesBE, bytesToNatBE] at *
    rw [List.foldl_append]
    simp only [List.foldl_cons, List.foldl_nil]
    rw [ih (v / 256)]
    rw [pow_succ, Nat.mul_comm (256 ^ n) 256, Nat.mod_mul]
    omega

/- The SHA-256 digest is always 32 bytes, each below 256. -/

theorem shaCompress_length (hs block : List Nat) : (shaCompress hs block).length = 8 := by
  simp [shaCompress]

theorem foldl_shaCompress_length (blocks : List (List Nat)) :
    ∀ hs : List Nat, hs.length = 8 → (blocks.foldl shaCompress hs).length = 8 := by
  induction blocks with
  | nil => intro hs h; simpa using h
  | cons b t ih =>
    intro hs h
    simp only [List.foldl_cons]
    exact ih _ (shaCompress_length hs b)

theorem flatMap_natToBytesBE_length (l : List Nat) :
    (l.flatMap (natToBytesBE 4)).length = 4 * l.length := by
  induction l with
  | nil => simp
  | cons a t ih =>
    simp only [List.flatMap_cons, List.length_append, natToBytesBE_length, ih,
      List.length_cons]
    omega

theorem sha256_length (msg : List Nat) : (sha256 msg).length = 32 := by
  unfold sha256
  rw [flatMap_natToBytesBE_length, foldl_shaCompress_length _ shaH0 (by rfl)]

theorem sha256_mem_lt (msg : List Nat) : ∀ b ∈ sha256 msg, b < 256 := by
  intro b hb
  unfold sha256 at hb
  simp only [List.mem_flatMap] at hb
  obtain ⟨w, _, hw⟩ := hb
  exact natToBytesBE_mem_lt 4 w b hw

theorem pow256_32 : (256 : Nat) ^ 32 = 2 ^ 256 := by decide

theorem bytesToNatBE_lt_pow (l : List Nat) (hlen : l.length = 32) (h : ∀ b ∈ l, b < 256) :
    bytesToNatBE l < 2 ^ 256 := by
  have h1 := bytesToNatBE_lt l h
  rw [hlen, pow256_32] at h1
  exact h1

theorem sha256_value_lt (msg : List Nat) : bytesToNatBE (sha256 msg) < 2 ^ 256 :=
  bytesToNatBE_lt_pow _ (sha256_length msg) (sha256_mem_lt msg)

/- Canonicity of the constructors and constant tables. -/

theorem Fr.reduceOnce_lt_pow (v : Nat) (hv : v < 2 ^ 256) : Fr.reduceOnce v < 2 ^ 256 := by
  unfold Fr.reduceOnce
  split
  · omega
  · exact Nat.mod_lt _ (by norm_num)

theorem Fr.reduceOnce_eq_fReduce (v : Nat) (hv : v < 2 ^ 256) :
    Fr.reduceOnce v = fReduce v := by
  have h2r : 2 * rModulus < 2 ^ 256 := two_rModulus_lt
  unfold Fr.reduceOnce fReduce
  by_cases hlt : v < rModulus
  · rw [if_pos hlt, if_pos hlt]
  · rw [if_neg hlt, if_neg hlt]
    have e1 : v + 2 ^ 256 - rModulus = 2 ^ 256 + (v - rModulus) := by omega
    rw [e1, Nat.add_mod_left, Nat.mod_eq_of_lt (by omega)]

theorem FromBytes_lt (data : List Nat) (h : bytesToNatBE data < 2 ^ 256) :
    FromBytes data < rModulus :=
  Fr.Mul_lt (Fr.reduceOnce_lt_pow _ h) montgomeryR2_lt

theorem FromBytes_eq_fFromBytes (data : List Nat) (h : bytesToNatBE data < 2 ^ 256) :
    FromBytes data = fFromBytes data := by
  unfold FromBytes fFromBytes
  rw [Fr.Mul_eq_fMul (Fr.reduceOnce_lt_pow _ h) montgomeryR2_lt,
    Fr.reduceOnce_eq_fReduce _ h]

theorem pow64_lt_pow256 : (2 : Nat) ^ 64 < 2 ^ 256 := by decide

theorem FromUint64_lt (x : Nat) (hx : x < 2 ^ 64) : FromUint64 x < rModulus := by
  unfold FromUint64
  split
  · exact rModulus_pos
  · split
    · exact montgomeryR_lt
    · exact Fr.Mul_lt (by have := pow64_lt_pow256; omega) montgomeryR2_lt

theorem FromUint64_eq_fFromUint64 (x : Nat) (hx : x < 2 ^ 64) :
    FromUint64 x = fFromUint64 x := by
  unfold FromUint64 fFromUint64 Fr.Zero Fr.One
  by_cases h0 : x = 0
  · rw [if_pos h0, if_pos h0]
  · rw [if_neg h0, if_neg h0]
    by_cases h1 : x = 1
    · rw [if_pos h1, if_pos h1]
    · rw [if_neg h1, if_neg h1]
      exact Fr.Mul_eq_fMul (by have := pow64_lt_pow256; omega) montgomeryR2_lt

theorem generateConstant_lt (seed : List Nat) (ro p : Nat) :
    generateConstant seed ro p < rModulus :=
  FromBytes_lt _ (sha256_value_lt _)

theorem generateConstant_eq (seed : List Nat) (ro p : Nat) :
    generateConstant seed ro p = fGenerateConstant seed ro p :=
  FromBytes_eq_fFromBytes _ (sha256_value_lt _)

theorem roundConstants_lt (ro p : Nat) : roundConstants ro p < rModulus := by
  unfold roundConstants
  split
  · exact generateConstant_lt _ _ _
  · split
    · exact generateConstant_lt _ _ _
    · exact rModulus_pos

theorem roundConstants_eq (ro p : Nat) : roundConstants ro p = fRoundConstants ro p := by
  unfold roundConstants fRoundConstants
  split
  · exact generateConstant_eq _ _ _
  · split
    · exact generateConstant_eq _ _ _
    · rfl

theorem mdsMatrix_lt (i j : Nat) : mdsMatrix i j < rModulus :=
  Fr.Add_lt _ _ (generateConstant_lt _ _ _) (FromUint64_lt 1 (by norm_num))

theorem mdsMatrix_eq (i j : Nat) : mdsMatrix i j = fMdsMatrix i j := by
  unfold mdsMatrix fMdsMatrix
  rw [Fr.Add_eq_fAdd _ _ (generateConstant_lt _ _ _) (FromUint64_lt 1 (by norm_num)),
    generateConstant_eq, FromUint64_eq_fFromUint64 1 (by norm_num)]

theorem sBoxProd_lt (x : Nat) (hx : x < rModulus) : sBoxProd x < rModulus := by
  unfold sBoxProd
  exact Fr.Mul_lt
    (lt_trans (Fr.Square_lt _ (Fr.Square_lt _ hx)) rModulus_lt_pow) hx

theorem sBoxProd_eq (x : Nat) (hx : x < rModulus) : sBoxProd x = fSbox x := by
  have hxp : x < 2 ^ 256 := lt_trans hx rModulus_lt_pow
  have h2 : Fr.Mul x x = fMul x x := Fr.Mul_eq_fMul hxp hx
  have h2lt : fMul x x < rModulus := fMul_lt x x
  have h4 : Fr.Mul (fMul x x) (fMul x x) = fMul (fMul x x) (fMul x x) :=
    Fr.Mul_eq_fMul (lt_trans h2lt rModulus_lt_pow) h2lt
  have h4lt : fMul (fMul x x) (fMul x x) < rModulus := fMul_lt _ _
  show Fr.Mul (Fr.Mul (Fr.Mul x x) (Fr.Mul x x)) x = fMul (fMul (fMul x x) (fMul x x)) x
  rw [h2, h4, Fr.Mul_eq_fMul (lt_trans h4lt rModulus_lt_pow) hx]

/- The permutation agrees with its modular-arithmetic characterisation on
canonical states, and preserves canonicity. -/

theorem mdsRow_eq (i : Nat) (s : St3) (h : StCanon s) :
    Fr.Add (Fr.Add (Fr.Add Fr.Zero (Fr.Mul (mdsMatrix i 0) s.x0))
        (Fr.Mul (mdsMatrix i 1) s.x1)) (Fr.Mul (mdsMatrix i 2) s.x2) =
    fAdd (fAdd (fAdd 0 (fMul (fMdsMatrix i 0) s.x0))
        (fMul (fMdsMatrix i 1) s.x1)) (fMul (fMdsMatrix i 2) s.x2) := by
  obtain ⟨h0, h1, h2⟩ := h
  have m0 : Fr.Mul (mdsMatrix i 0) s.x0 = fMul (fMdsMatrix i 0) s.x0 := by
    rw [Fr.Mul_eq_fMul (lt_trans (mdsMatrix_lt i 0) rModulus_lt_pow) h0, mdsMatrix_eq]
  have m1 : Fr.Mul (mdsMatrix i 1) s.x1 = fMul (fMdsMatrix i 1) s.x1 := by
    rw [Fr.Mul_eq_fMul (lt_trans (mdsMatrix_lt i 1) rModulus_lt_pow) h1, mdsMatrix_eq]
  have m2 : Fr.Mul (mdsMatrix i 2) s.x2 = fMul (fMdsMatrix i 2) s.x2 := by
    rw [Fr.Mul_eq_fMul (lt_trans (mdsMatrix_lt i 2) rModulus_lt_pow) h2, mdsMatrix_eq]
  rw [m0, m1, m2]
  have a0 : Fr.Add Fr.Zero (fMul (fMdsMatrix i 0) s.x0) =
      fAdd 0 (fMul (fMdsMatrix i 0) s.x0) :=
    Fr.Add_eq_fAdd _ _ rModulus_pos (fMul_lt _ _)
  rw [a0]
  have a1 : Fr.Add (fAdd 0 (fMul (fMdsMatrix i 0) s.x0)) (fMul (fMdsMatrix i 1) s.x1) =
      fAdd (fAdd 0 (fMul (fMdsMatrix i 0) s.x0)) (fMul (fMdsMatrix i 1) s.x1) :=
    Fr.Add_eq_fAdd _ _ (fAdd_lt _ _) (fMul_lt _ _)
  rw [a1]
  exact Fr.Add_eq_fAdd _ _ (fAdd_lt _ _) (fMul_lt _ _)

theorem applyMDS_eq (s : St3) (h : StCanon s) : applyMDS s = fApplyMDS s := by
  simp only [applyMDS, fApplyMDS]
  rw [mdsRow_eq 0 s h, mdsRow_eq 1 s h, mdsRow_eq 2 s h]

theorem fApplyMDS_canon (s : St3) : StCanon (fApplyMDS s) :=
  ⟨fAdd_lt _ _, fAdd_lt _ _, fAdd_lt _ _⟩

theorem applyMDS_canon (s : St3) (h : StCanon s) : StCanon (applyMDS s) := by
  rw [applyMDS_eq s h]; exact fApplyMDS_canon s

theorem fullRound_eq (ro : Nat) (s : St3) (h : StCanon s) :
    fullRound ro s = fFullRound ro s := by
  obtain ⟨h0, h1, h2⟩ := h
  have e0 : Fr.Add s.x0 (roundConstants ro 0) = fAdd s.x0 (fRoundConstants ro 0) := by
    rw [Fr.Add_eq_fAdd _ _ h0 (roundConstants_lt ro 0), roundConstants_eq]
  have e1 : Fr.Add s.x1 (roundConstants ro 1) = fAdd s.x1 (fRoundConstants ro 1) := by
    rw [Fr.Add_eq_fAdd _ _ h1 (roundConstants_lt ro 1), roundConstants_eq]
  have e2 : Fr.Add s.x2 (roundConstants ro 2) = fAdd s.x2 (fRoundConstants ro 2) := by
    rw [Fr.Add_eq_fAdd _ _ h2 (roundConstants_lt ro 2), roundConstants_eq]
  simp only [fullRound, fFullRound]
  rw [e0, e1, e2,
    sBoxProd_eq _ (fAdd_lt _ _), sBoxProd_eq _ (fAdd_lt _ _), sBoxProd_eq _ (fAdd_lt _ _)]
  exact applyMDS_eq _ ⟨fSbox_lt _, fSbox_lt _, fSbox_lt _⟩

theorem partialRound_eq (ro : Nat) (s : St3) (h : StCanon s) :
    partialRound ro s = fPartialRound ro s := by
  obtain ⟨h0, h1, h2⟩ := h
  have e0 : Fr.Add s.x0 (roundConstants ro 0) = fAdd s.x0 (fRoundConstants ro 0) := by
    rw [Fr.Add_eq_fAdd _ _ h0 (roundConstants_lt ro 0), roundConstants_eq]
  simp only [partialRound, fPartialRound]
  rw [e0, sBoxProd_eq _ (fAdd_lt _ _)]
  exact applyMDS_eq _ ⟨fSbox_lt _, h1, h2⟩

theorem fFullRound_canon (ro : Nat) (s : St3) : StCanon (fFullRound ro s) :=
  fApplyMDS_canon _

theorem fPartialRound_canon (ro : Nat) (s : St3) : StCanon (fPartialRound ro s) :=
  fApplyMDS_canon _

theorem fullRound_canon (ro : Nat) (s : St3) (h : StCanon s) : StCanon (fullRound ro s) := by
  rw [fullRound_eq ro s h]; exact fFullRound_canon ro s

theorem partialRound_canon (ro : Nat) (s : St3) (h : StCanon s) :
    StCanon (partialRound ro s) := by
  rw [partialRound_eq ro s h]; exact fPartialRound_canon ro s

theorem foldRounds_canon (f : Nat → St3 → St3)
    (hf : ∀ k s, StCanon s → StCanon (f k s)) :
    ∀ (n start : Nat) (s : St3), StCanon s → StCanon (foldRounds f start n s) := by
  intro n
  induction n with
  | zero => intro start s h; exact h
  | succ n ih => intro start s h; exact ih (start + 1) (f start s) (hf start s h)

theorem foldRounds_congr (f g : Nat → St3 → St3)
    (hfg : ∀ k s, StCanon s → f k s = g k s)
    (hf : ∀ k s, StCanon s → StCanon (f k s)) :
    ∀ (n start : Nat) (s : St3), StCanon s →
      foldRounds f start n s = foldRounds g start n s := by
  intro n
  induction n with
  | zero => intro start s _; rfl
  | succ n ih =>
    intro start s h
    calc foldRounds f start (n + 1) s = foldRounds f (start + 1) n (f start s) := rfl
      _ = foldRounds g (start + 1) n (f start s) := ih (start + 1) (f start s) (hf start s h)
      _ = foldRounds g (start + 1) n (g start s) := by rw [hfg start s h]
      _ = foldRounds g start (n + 1) s := rfl

theorem ProductionPermutation_eq (s : St3) (h : StCanon s) :
    ProductionPermutation s = fPerm s := by
  have c1 : StCanon (foldRounds fullRound 0 4 s) :=
    foldRounds_canon fullRound fullRound_canon 4 0 s h
  have c2 : StCanon (foldRounds partialRound 4 56 (foldRounds fullRound 0 4 s)) :=
    foldRounds_canon partialRound partialRound_canon 56 4 _ c1
  have e1 : foldRounds fullRound 0 4 s = foldRounds fFullRound 0 4 s :=
    foldRounds_congr fullRound fFullRound fullRound_eq fullRound_canon 4 0 s h
  have e2 : foldRounds partialRound 4 56 (foldRounds fullRound 0 4 s) =
      foldRounds fPartialRound 4 56 (foldRounds fFullRound 0 4 s) := by
    rw [foldRounds_congr partialRound fPartialRound partialRound_eq partialRound_canon
      56 4 _ c1, e1]
  show foldRounds fullRound 60 4 (foldRounds partialRound 4 56 (foldRounds fullRound 0 4 s)) =
    foldRounds fFullRound 60 4 (foldRounds fPartialRound 4 56 (foldRounds fFullRound 0 4 s))
  rw [foldRounds_congr fullRound fFullRound fullRound_eq fullRound_canon 4 60 _ c2, e2]

theorem ProductionPermutation_canon (s : St3) (h : StCanon s) :
    StCanon (ProductionPermutation s) := by
  have c1 : StCanon (foldRounds fullRound 0 4 s) :=
    foldRounds_canon fullRound fullRound_canon 4 0 s h
  have c2 : StCanon (foldRounds partialRound 4 56 (foldRounds fullRound 0 4 s)) :=
    foldRounds_canon partialRound partialRound_canon 56 4 _ c1
  show StCanon (foldRounds fullRound 60 4
    (foldRounds partialRound 4 56 (foldRounds fullRound 0 4 s)))
  exact foldRounds_canon fullRound fullRound_canon 4 60 _ c2


/- Each entry of the literal tables equals the seed-derived constant: one
kernel evaluation of the SHA-256-based generator per entry. -/
theorem rcEval_0_0 : fRoundConstants 0 0 = gRC 0 0 := by decide
theorem rcEval_0_1 : fRoundConstants 0 1 = gRC 0 1 := by decide
theorem rcEval_0_2 : fRoundConstants 0 2 = gRC 0 2 := by decide
theorem rcEval_1_0 : fRoundConstants 1 0 = gRC 1 0 := by decide
theorem rcEval_1_1 : fRoundConstants 1 1 = gRC 1 1 := by decide
theorem rcEval_1_2 : fRoundConstants 1 2 = gRC 1 2 := by decide
theorem rcEval_2_0 : fRoundConstants 2 0 = gRC 2 0 := by decide
theorem rcEval_2_1 : fRoundConstants 2 1 = gRC 2 1 := by decide
theorem rcEval_2_2 : fRoundConstants 2 2 = gRC 2 2 := by decide
theorem rcEval_3_0 : fRoundConstants 3 0 = gRC 3 0 := by decide
theorem rcEval_3_1 : fRoundConstants 3 1 = gRC 3 1 := by decide
theorem rcEval_3_2 : fRoundConstants 3 2 = gRC 3 2 := by decide
theorem rcEval_60_0 : fRoundConstants 60 0 = gRC 60 0 := by decide
theorem rcEval_60_1 : fRoundConstants 60 1 = gRC 60 1 := by decide
theorem rcEval_60_2 : fRoundConstants 60 2 = gRC 60 2 := by decide
theorem rcEval_61_0 : fRoundConstants 61 0 = gRC 61 0 := by decide
theorem rcEval_61_1 : fRoundConstants 61 1 = gRC 61 1 := by decide
theorem rcEval_61_2 : fRoundConstants 61 2 = gRC 61 2 := by decide
theorem rcEval_62_0 : fRoundConstants 62 0 = gRC 62 0 := by decide
theorem rcEval_62_1 : fRoundConstants 62 1 = gRC 62 1 := by decide
theorem rcEval_62_2 : fRoundConstants 62 2 = gRC 62 2 := by decide
theorem rcEval_63_0 : fRoundConstants 63 0 = gRC 63 0 := by decide
theorem rcEval_63_1 : fRoundConstants 63 1 = gRC 63 1 := by decide
theorem rcEval_63_2 : fRoundConstants 63 2 = gRC 63 2 := by decide
theorem rcEval_4_0 : fRoundConstants 4 0 = gRC 4 0 := by decide
theorem rcEval_5_0 : fRoundConstants 5 0 = gRC 5 0 := by decide
theorem rcEval_6_0 : fRoundConstants 6 0 = gRC 6 0 := by decide
theorem rcEval_7_0 : fRoundConstants 7 0 = gRC 7 0 := by decide
theorem rcEval_8_0 : fRoundConstants 8 0 = gRC 8 0 := by decide
theorem rcEval_9_0 : fRoundConstants 9 0 = gRC 9 0 := by decide
theorem rcEval_10_0 : fRoundConstants 10 0 = gRC 10 0 := by decide
theorem rcEval_11_0 : fRoundConstants 11 0 = gRC 11 0 := by decide
theorem rcEval_12_0 : fRoundConstants 12 0 = gRC 12 0 := by decide
theorem rcEval_13_0 : fRoundConstants 13 0 = gRC 13 0 := by decide
theorem rcEval_14_0 : fRoundConstants 14 0 = gRC 14 0 := by decide
theorem rcEval_15_0 : fRoundConstants 15 0 = gRC 15 0 := by decide
theorem rcEval_16_0 : fRoundConstants 16 0 = gRC 16 0 := by decide
theorem rcEval_17_0 : fRoundConstants 17 0 = gRC 17 0 := by decide
theorem rcEval_18_0 : fRoundConstants 18 0 = gRC 18 0 := by decide
theorem rcEval_19_0 : fRoundConstants 19 0 = gRC 19 0 := by decide
theorem rcEval_20_0 : fRoundConstants 20 0 = gRC 20 0 := by decide
theorem rcEval_21_0 : fRoundConstants 21 0 = gRC 21 0 := by decide
theorem rcEval_22_0 : fRoundConstants 22 0 = gRC 22 0 := by decide
theorem rcEval_23_0 : fRoundConstants 23 0 = gRC 23 0 := by decide
theorem rcEval_24_0 : fRoundConstants 24 0 = gRC 24 0 := by decide
theorem rcEval_25_0 : fRoundConstants 25 0 = gRC 25 0 := by decide
theorem rcEval_26_0 : fRoundConstants 26 0 = gRC 26 0 := by decide
theorem rcEval_27_0 : fRoundConstants 27 0 = gRC 27 0 := by decide
theorem rcEval_28_0 : fRoundConstants 28 0 = gRC 28 0 := by decide
theorem rcEval_29_0 : fRoundConstants 29 0 = gRC 29 0 := by decide
theorem rcEval_30_0 : fRoundConstants 30 0 = gRC 30 0 := by decide
theorem rcEval_31_0 : fRoundConstants 31 0 = gRC 31 0 := by decide
theorem rcEval_32_0 : fRoundConstants 32 0 = gRC 32 0 := by decide
theorem rcEval_33_0 : fRoundConstants 33 0 = gRC 33 0 := by decide
theorem rcEval_34_0 : fRoundConstants 34 0 = gRC 34 0 := by decide
theorem rcEval_35_0 : fRoundConstants 35 0 = gRC 35 0 := by decide
theorem rcEval_36_0 : fRoundConstants 36 0 = gRC 36 0 := by decide
theorem rcEval_37_0 : fRoundConstants 37 0 = gRC 37 0 := by decide
theorem rcEval_38_0 : fRoundConstants 38 0 = gRC 38 0 := by decide
theorem rcEval_39_0 : fRoundConstants 39 0 = gRC 39 0 := by decide
theorem rcEval_40_0 : fRoundConstants 40 0 = gRC 40 0 := by decide
theorem rcEval_41_0 : fRoundConstants 41 0 = gRC 41 0 := by decide
theorem rcEval_42_0 : fRoundConstants 42 0 = gRC 42 0 := by decide
theorem rcEval_43_0 : fRoundConstants 43 0 = gRC 43 0 := by decide
theorem rcEval_44_0 : fRoundConstants 44 0 = gRC 44 0 := by decide
theorem rcEval_45_0 : fRoundConstants 45 0 = gRC 45 0 := by decide
theorem rcEval_46_0 : fRoundConstants 46 0 = gRC 46 0 := by decide
theorem rcEval_47_0 : fRoundConstants 47 0 = gRC 47 0 := by decide
theorem rcEval_48_0 : fRoundConstants 48 0 = gRC 48 0 := by decide
theorem rcEval_49_0 : fRoundConstants 49 0 = gRC 49 0 := by decide
theorem rcEval_50_0 : fRoundConstants 50 0 = gRC 50 0 := by decide
theorem rcEval_51_0 : fRoundConstants 51 0 = gRC 51 0 := by decide
theorem rcEval_52_0 : fRoundConstants 52 0 = gRC 52 0 := by decide
theorem rcEval_53_0 : fRoundConstants 53 0 = gRC 53 0 := by decide
theorem rcEval_54_0 : fRoundConstants 54 0 = gRC 54 0 := by decide
theorem rcEval_55_0 : fRoundConstants 55 0 = gRC 55 0 := by decide
theorem rcEval_56_0 : fRoundConstants 56 0 = gRC 56 0 := by decide
theorem rcEval_57_0 : fRoundConstants 57 0 = gRC 57 0 := by decide
theorem rcEval_58_0 : fRoundConstants 58 0 = gRC 58 0 := by decide
theorem rcEval_59_0 : fRoundConstants 59 0 = gRC 59 0 := by decide
theorem mdsEval_0_0 : fMdsMatrix 0 0 = gMds 0 0 := by decide
theorem mdsEval_0_1 : fMdsMatrix 0 1 = gMds 0 1 := by decide
theorem mdsEval_0_2 : fMdsMatrix 0 2 = gMds 0 2 := by decide
theorem mdsEval_1_0 : fMdsMatrix 1 0 = gMds 1 0 := by decide
theorem mdsEval_1_1 : fMdsMatrix 1 1 = gMds 1 1 := by decide
theorem mdsEval_1_2 : fMdsMatrix 1 2 = gMds 1 2 := by decide
theorem mdsEval_2_0 : fMdsMatrix 2 0 = gMds 2 0 := by decide
theorem mdsEval_2_1 : fMdsMatrix 2 1 = gMds 2 1 := by decide
theorem mdsEval_2_2 : fMdsMatrix 2 2 = gMds 2 2 := by decide

theorem fApplyMDS_eq_gApplyMDS (s : St3) : fApplyMDS s = gApplyMDS s := by
  simp only [fApplyMDS, gApplyMDS]
  rw [mdsEval_0_0, mdsEval_0_1, mdsEval_0_2, mdsEval_1_0, mdsEval_1_1, mdsEval_1_2,
    mdsEval_2_0, mdsEval_2_1, mdsEval_2_2]

theorem fFullRound_eq_gFullRound (k : Nat)
    (h0 : fRoundConstants k 0 = gRC k 0) (h1 : fRoundConstants k 1 = gRC k 1)
    (h2 : fRoundConstants k 2 = gRC k 2) : ∀ s, fFullRound k s = gFullRound k s := by
  intro s
  simp only [fFullRound, gFullRound]
  rw [h0, h1, h2, fApplyMDS_eq_gApplyMDS]

theorem fPartialRound_eq_gPartialRound (k : Nat)
    (h0 : fRoundConstants k 0 = gRC k 0) : ∀ s, fPartialRound k s = gPartialRound k s := by
  intro s
  simp only [fPartialRound, gPartialRound]
  rw [h0, fApplyMDS_eq_gApplyMDS]

theorem foldRounds_congr_on (f g : Nat → St3 → St3) :
    ∀ (n start : Nat), (∀ k, start ≤ k → k < start + n → ∀ s, f k s = g k s) →
      ∀ s, foldRounds f start n s = foldRounds g start n s := by
  intro n
  induction n with
  | zero => intro start _ s; rfl
  | succ n ih =>
    intro start h s
    show foldRounds f (start + 1) n (f start s) = foldRounds g (start + 1) n (g start s)
    rw [h start (le_refl _) (by omega) s]
    exact ih (start + 1) (fun k hk1 hk2 s => h k (by omega) (by omega) s) _
theorem phase1_eq : ∀ k, 0 ≤ k → k < 0 + 4 → ∀ s, fFullRound k s = gFullRound k s := by
  intro k hk1 hk2
  interval_cases k
  · exact fFullRound_eq_gFullRound 0 rcEval_0_0 rcEval_0_1 rcEval_0_2
  · exact fFullRound_eq_gFullRound 1 rcEval_1_0 rcEval_1_1 rcEval_1_2
  · exact fFullRound_eq_gFullRound 2 rcEval_2_0 rcEval_2_1 rcEval_2_2
  · exact fFullRound_eq_gFullRound 3 rcEval_3_0 rcEval_3_1 rcEval_3_2

theorem phase2_eq : ∀ k, 4 ≤ k → k < 4 + 56 → ∀ s, fPartialRound k s = gPartialRound k s := by
  intro k hk1 hk2
  interval_cases k
  · exact fPartialRound_eq_gPartialRound 4 rcEval_4_0
  · exact fPartialRound_eq_gPartialRound 5 rcEval_5_0
  · exact fPartialRound_eq_gPartialRound 6 rcEval_6_0
  · exact fPartialRound_eq_gPartialRound 7 rcEval_7_0
  · exact fPartialRound_eq_gPartialRound 8 rcEval_8_0
  · exact fPartialRound_eq_gPartialRound 9 rcEval_9_0
  · exact fPartialRound_eq_gPartialRound 10 rcEval_10_0
  · exact fPartialRound_eq_gPartialRound 11 rcEval_11_0
  · exact fPartialRound_eq_gPartialRound 12 rcEval_12_0
  · exact fPartialRound_eq_gPartialRound 13 rcEval_13_0
  · exact fPartialRound_eq_gPartialRound 14 rcEval_14_0
  · exact fPartialRound_eq_gPartialRound 15 rcEval_15_0
  · exact fPartialRound_eq_gPartialRound 16 rcEval_16_0
  · exact fPartialRound_eq_gPartialRound 17 rcEval_17_0
  · exact fPartialRound_eq_gPartialRound 18 rcEval_18_0
  · exact fPartialRound_eq_gPartialRound 19 rcEval_19_0
  · exact fPartialRound_eq_gPartialRound 20 rcEval_20_0
  · exact fPartialRound_eq_gPartialRound 21 rcEval_21_0
  · exact fPartialRound_eq_gPartialRound 22 rcEval_22_0
  · exact fPartialRound_eq_gPartialRound 23 rcEval_23_0
  · exact fPartialRound_eq_gPartialRound 24 rcEval_24_0
  · exact fPartialRound_eq_gPartialRound 25 rcEval_25_0
  · exact fPartialRound_eq_gPartialRound 26 rcEval_26_0
  · exact fPartialRound_eq_gPartialRound 27 rcEval_27_0
  · exact fPartialRound_eq_gPartialRound 28 rcEval_28_0
  · exact fPartialRound_eq_gPartialRound 29 rcEval_29_0
  · exact fPartialRound_eq_gPartialRound 30 rcEval_30_0
  · exact fPartialRound_eq_gPartialRound 31 rcEval_31_0
  · exact fPartialRound_eq_gPartialRound 32 rcEval_32_0
  · exact fPartialRound_eq_gPartialRound 33 rcEval_33_0
  · exact fPartialRound_eq_gPartialRound 34 rcEval_34_0
  · exact fPartialRound_eq_gPartialRound 35 rcEval_35_0
  · exact fPartialRound_eq_gPartialRound 36 rcEval_36_0
  · exact fPartialRound_eq_gPartialRound 37 rcEval_37_0
  · exact fPartialRound_eq_gPartialRound 38 rcEval_38_0
  · exact fPartialRound_eq_gPartialRound 39 rcEval_39_0
  · exact fPartialRound_eq_gPartialRound 40 rcEval_40_0
  · exact fPartialRound_eq_gPartialRound 41 rcEval_41_0
  · exact fPartialRound_eq_gPartialRound 42 rcEval_42_0
  · exact fPartialRound_eq_gPartialRound 43 rcEval_43_0
  · exact fPartialRound_eq_gPartialRound 44 rcEval_44_0
  · exact fPartialRound_eq_gPartialRound 45 rcEval_45_0
  · exact fPartialRound_eq_gPartialRound 46 rcEval_46_0
  · exact fPartialRound_eq_gPartialRound 47 rcEval_47_0
  · exact fPartialRound_eq_gPartialRound 48 rcEval_48_0
  · exact fPartialRound_eq_gPartialRound 49 rcEval_49_0
  · exact fPartialRound_eq_gPartialRound 50 rcEval_50_0
  · exact fPartialRound_eq_gPartialRound 51 rcEval_51_0
  · exact fPartialRound_eq_gPartialRound 52 rcEval_52_0
  · exact fPartialRound_eq_gPartialRound 53 rcEval_53_0
  · exact fPartialRound_eq_gPartialRound 54 rcEval_54_0
  · exact fPartialRound_eq_gPartialRound 55 rcEval_55_0
  · exact fPartialRound_eq_gPartialRound 56 rcEval_56_0
  · exact fPartialRound_eq_gPartialRound 57 rcEval_57_0
  · exact fPartialRound_eq_gPartialRound 58 rcEval_58_0
  · exact fPartialRound_eq_gPartialRound 59 rcEval_59_0

theorem phase3_eq : ∀ k, 60 ≤ k → k < 60 + 4 → ∀ s, fFullRound k s = gFullRound k s := by
  intro k hk1 hk2
  interval_cases k
  · exact fFullRound_eq_gFullRound 60 rcEval_60_0 rcEval_60_1 rcEval_60_2
  · exact fFullRound_eq_gFullRound 61 rcEval_61_0 rcEval_61_1 rcEval_61_2
  · exact fFullRound_eq_gFullRound 62 rcEval_62_0 rcEval_62_1 rcEval_62_2
  · exact fFullRound_eq_gFullRound 63 rcEval_63_0 rcEval_63_1 rcEval_63_2

theorem fPerm_eq_gPerm (s : St3) : fPerm s = gPerm s := by
  unfold fPerm gPerm
  rw [foldRounds_congr_on fFullRound gFullRound 4 0 phase1_eq s,
    foldRounds_congr_on fPartialRound gPartialRound 56 4 phase2_eq _,
    foldRounds_congr_on fFullRound gFullRound 4 60 phase3_eq _]

theorem gPerm_zero : gPerm (St3.mk 0 0 0) =
    St3.mk 12478606299671147860462009658166333755509306455211143602079453464057830275577 13523479492567517684851693155937047320206565665621756342835413831214583315426 19106172197482873610247462502467939863818024139463365231996457486980701254691 := by decide

theorem fPerm_zero : fPerm (St3.mk 0 0 0) =
    St3.mk 12478606299671147860462009658166333755509306455211143602079453464057830275577 13523479492567517684851693155937047320206565665621756342835413831214583315426 19106172197482873610247462502467939863818024139463365231996457486980701254691 := by
  rw [fPerm_eq_gPerm]; exact gPerm_zero

theorem zeroState_canon : StCanon (St3.mk 0 0 0) :=
  ⟨rModulus_pos, rModulus_pos, rModulus_pos⟩

theorem ProductionPermutation_zero : ProductionPermutation (St3.mk 0 0 0) =
    St3.mk 12478606299671147860462009658166333755509306455211143602079453464057830275577 13523479492567517684851693155937047320206565665621756342835413831214583315426 19106172197482873610247462502467939863818024139463365231996457486980701254691 :=
  (ProductionPermutation_eq (St3.mk 0 0 0) zeroState_canon).trans fPerm_zero

/- The sponge: canonicity and the absorbed-counter discipline. -/

theorem Absorb_canon (h : Hasher) (e : Nat) (hst : StCanon h.state) (he : e < rModulus)
    (hab : h.absorbed < 2) :
    StCanon (Hasher.Absorb h e).state ∧
    (Hasher.Absorb h e).absorbed = (h.absorbed + 1) % 2 := by
  obtain ⟨h0, h1, h2⟩ := hst
  have hcase : h.absorbed = 0 ∨ h.absorbed = 1 := by omega
  rcases hcase with hc | hc
  · simp only [Hasher.Absorb, hc, stGet, stSet]
    rw [if_neg (by omega : ¬(2 ≤ 0 + 1))]
    exact ⟨⟨Fr.Add_lt _ _ h0 he, h1, h2⟩, rfl⟩
  · simp only [Hasher.Absorb, hc, stGet, stSet]
    rw [if_pos (by omega : 2 ≤ 1 + 1)]
    exact ⟨ProductionPermutation_canon _ ⟨h0, Fr.Add_lt _ _ h1 he, h2⟩, rfl⟩

theorem AbsorbMany_canon (es : List Nat) : ∀ h : Hasher, StCanon h.state →
    h.absorbed < 2 → (∀ e ∈ es, e < rModulus) →
    StCanon (Hasher.AbsorbMany h es).state ∧
    (Hasher.AbsorbMany h es).absorbed = (h.absorbed + es.length) % 2 := by
  induction es with
  | nil =>
    intro h hst hab _
    exact ⟨hst, by simp [Hasher.AbsorbMany]; omega⟩
  | cons e t ih =>
    intro h hst hab he
    show StCanon (Hasher.AbsorbMany (Hasher.Absorb h e) t).state ∧
      (Hasher.AbsorbMany (Hasher.Absorb h e) t).absorbed = (h.absorbed + (e :: t).length) % 2
    obtain ⟨hst2, hab2⟩ := Absorb_canon h e hst (he e (List.mem_cons_self e t)) hab
    have hab3 : (Hasher.Absorb h e).absorbed < 2 := by omega
    obtain ⟨A, B⟩ := ih (Hasher.Absorb h e) hst2 hab3
      (fun x hx => he x (List.mem_cons_of_mem _ hx))
    refine ⟨A, ?_⟩
    rw [B, hab2]
    simp only [List.length_cons]
    omega

theorem Finalize_absorb_zero (h : Hasher) (hst : StCanon h.state) (hab : h.absorbed = 1) :
    (Hasher.Finalize (Hasher.Absorb h Fr.Zero)).1 = (Hasher.Finalize h).1 := by
  obtain ⟨h0, h1, h2⟩ := hst
  simp only [Hasher.Absorb, hab, stGet, stSet]
  rw [show Fr.Add h.state.x1 Fr.Zero = h.state.x1 from Fr.Add_zero_right _ h1]
  rw [if_pos (by omega : 2 ≤ 1 + 1)]
  rw [show St3.mk h.state.x0 h.state.x1 h.state.x2 = h.state from rfl]
  simp [Hasher.Finalize, hab]

/- The permutation as the spec's explicit round schedule. -/

theorem applySchedule_append (l1 l2 : List RoundKind) :
    ∀ (r0 : Nat) (s : St3), applySchedule (l1 ++ l2) r0 s =
      applySchedule l2 (r0 + l1.length) (applySchedule l1 r0 s) := by
  induction l1 with
  | nil => intro r0 s; simp [applySchedule]
  | cons k ks ih =>
    intro r0 s
    show applySchedule (ks ++ l2) (r0 + 1) (applyMDS (nonlinearPart k r0 s)) =
      applySchedule l2 (r0 + (k :: ks).length)
        (applySchedule ks (r0 + 1) (applyMDS (nonlinearPart k r0 s)))
    rw [ih (r0 + 1) (applyMDS (nonlinearPart k r0 s))]
    rw [show r0 + 1 + ks.length = r0 + (k :: ks).length from by
      rw [List.length_cons]; omega]

theorem applySchedule_replicate_full : ∀ (n r0 : Nat) (s : St3),
    applySchedule (List.replicate n RoundKind.fullRnd) r0 s = foldRounds fullRound r0 n s := by
  intro n
  induction n with
  | zero => intro r0 s; rfl
  | succ n ih =>
    intro r0 s
    show applySchedule (List.replicate n RoundKind.fullRnd) (r0 + 1)
      (applyMDS (nonlinearPart RoundKind.fullRnd r0 s)) = foldRounds fullRound (r0 + 1) n (fullRound r0 s)
    rw [show applyMDS (nonlinearPart RoundKind.fullRnd r0 s) = fullRound r0 s from rfl]
    exact ih (r0 + 1) _

theorem applySchedule_replicate_partial : ∀ (n r0 : Nat) (s : St3),
    applySchedule (List.replicate n RoundKind.partialRnd) r0 s =
      foldRounds partialRound r0 n s := by
  intro n
  induction n with
  | zero => intro r0 s; rfl
  | succ n ih =>
    intro r0 s
    show applySchedule (List.replicate n RoundKind.partialRnd) (r0 + 1)
      (applyMDS (nonlinearPart RoundKind.partialRnd r0 s)) =
      foldRounds partialRound (r0 + 1) n (partialRound r0 s)
    rw [show applyMDS (nonlinearPart RoundKind.partialRnd r0 s) = partialRound r0 s from rfl]
    exact ih (r0 + 1) _

theorem perm_eq_schedule (s : St3) :
    ProductionPermutation s = applySchedule roundSchedule 0 s := by
  show foldRounds fullRound 60 4 (foldRounds partialRound 4 56 (foldRounds fullRound 0 4 s)) = _
  unfold roundSchedule
  rw [applySchedule_append, applySchedule_append, applySchedule_replicate_full,
    applySchedule_replicate_partial, applySchedule_replicate_full]
  norm_num

/- Serialisation round trips (for C6). -/

theorem one_lt_rModulus : (1 : Nat) < rModulus := by decide

theorem r2_rInv_sq_modeq : montgomeryR2 * rInvNat * rInvNat ≡ 1 [MOD rModulus] := by
  show montgomeryR2 * rInvNat * rInvNat % rModulus = 1 % rModulus
  rw [r2_mul_rInv_sq, Nat.mod_eq_of_lt one_lt_rModulus]

theorem fMulR2_toValue (w : Nat) : Fr.toValue (fMul w montgomeryR2) = w % rModulus := by
  show w * montgomeryR2 * rInvNat % rModulus * rInvNat % rModulus = w % rModulus
  calc w * montgomeryR2 * rInvNat % rModulus * rInvNat % rModulus
      = w * montgomeryR2 * rInvNat * rInvNat % rModulus := Nat.mod_mul_mod
    _ = w * (montgomeryR2 * rInvNat * rInvNat) % rModulus := by ring_nf
    _ = w * 1 % rModulus := Nat.ModEq.mul_left w r2_rInv_sq_modeq
    _ = w % rModulus := by rw [mul_one]

theorem roundTrip_FromBytes (f : Nat) (hf : f < rModulus) :
    FromBytes (Fr.ToBytes32 f) = f := by
  have hfp : f < 2 ^ 256 := lt_trans hf rModulus_lt_pow
  have hw : Fr.Mul f 1 = f * 1 * rInvNat % rModulus := Fr.Mul_eq_fMul hfp one_lt_rModulus
  have hwlt : Fr.Mul f 1 < rModulus := Fr.Mul_lt hfp one_lt_rModulus
  unfold FromBytes Fr.ToBytes32
  rw [bytesToNatBE_natToBytesBE 32 (Fr.Mul f 1), pow256_32,
    Nat.mod_eq_of_lt (lt_trans hwlt rModulus_lt_pow)]
  rw [show Fr.reduceOnce (Fr.Mul f 1) = Fr.Mul f 1 from by
    unfold Fr.reduceOnce; rw [if_pos hwlt]]
  rw [Fr.Mul_eq_fMul (lt_trans hwlt rModulus_lt_pow) montgomeryR2_lt, hw]
  show f * 1 * rInvNat % rModulus * montgomeryR2 * rInvNat % rModulus = f
  calc f * 1 * rInvNat % rModulus * montgomeryR2 * rInvNat % rModulus
      = f * 1 * rInvNat % rModulus * (montgomeryR2 * rInvNat) % rModulus := by ring_nf
    _ = f * 1 * rInvNat * (montgomeryR2 * rInvNat) % rModulus := Nat.mod_mul_mod
    _ = f * (montgomeryR2 * rInvNat * rInvNat) % rModulus := by ring_nf
    _ = f * 1 % rModulus := Nat.ModEq.mul_left f r2_rInv_sq_modeq
    _ = f := by rw [mul_one, Nat.mod_eq_of_lt hf]

theorem ToBytes32_value (f : Nat) (hf : f < 2 ^ 256) :
    bytesToNatBE (Fr.ToBytes32 f) = Fr.toValue f := by
  unfold Fr.ToBytes32
  rw [bytesToNatBE_natToBytesBE, Fr.Mul_eq_fMul hf one_lt_rModulus, pow256_32,
    Nat.mod_eq_of_lt (lt_trans (fMul_lt f 1) rModulus_lt_pow)]
  show f * 1 * rInvNat % rModulus = f * rInvNat % rModulus
  rw [mul_one]

theorem FromBytes_value (data : List Nat) (hlen : data.length = 32)
    (hb : ∀ b ∈ data, b < 256) :
    FromBytes data < rModulus ∧
    Fr.toValue (FromBytes data) = bytesToNatBE data % rModulus := by
  have hv : bytesToNatBE data < 2 ^ 256 := bytesToNatBE_lt_pow data hlen hb
  refine ⟨FromBytes_lt data hv, ?_⟩
  unfold FromBytes
  rw [Fr.Mul_eq_fMul (Fr.reduceOnce_lt_pow _ hv) montgomeryR2_lt, fMulR2_toValue]
  unfold Fr.reduceOnce
  by_cases hlt : bytesToNatBE data < rModulus
  · rw [if_pos hlt]
  · rw [if_neg hlt]
    have h2r := two_rModulus_lt
    have e1 : bytesToNatBE data + 2 ^ 256 - rModulus =
        2 ^ 256 + (bytesToNatBE data - rModulus) := by omega
    rw [e1, Nat.add_mod_left,
      Nat.mod_eq_of_lt (show bytesToNatBE data - rModulus < 2 ^ 256 from by omega)]
    exact (Nat.mod_eq_sub_mod (Nat.le_of_not_lt hlt)).symm

/- Hash of the empty input. -/

theorem Hash_nil : Hash ([] : List Nat) = Fr.Zero := rfl

/- Settlement of the frozen claims. -/

/-- C1 (counterexample): the spec says the empty-input hash equals the first
word of the permutation of the all-zero state; in the source, `Hash` with no
elements finalizes a fresh hasher whose `absorbed` counter is 0, so no
permutation runs and the result is `Zero`, which differs from the first word
of `ProductionPermutation` of the all-zero state. -/
theorem claim_C1_counterexample :
    Hash [] ≠ (ProductionPermutation (St3.mk Fr.Zero Fr.Zero Fr.Zero)).x0 := by
  show Hash [] ≠ (ProductionPermutation (St3.mk 0 0 0)).x0
  rw [Hash_nil, ProductionPermutation_zero]
  decide

/-- C1 (amended): `Hash` with zero elements returns `Zero`: finalizing the
fresh hasher leaves it untouched (no permutation is applied) and returns the
first word of the all-zero state. -/
theorem claim_C1_amended :
    Hash [] = Fr.Zero ∧ (Hasher.Finalize NewHasher).2 = NewHasher :=
  ⟨rfl, rfl⟩

/-- C2 (counterexample): `Finalize` and `Squeeze` do not agree on the
post-state.  On a hasher with one pending element, `Finalize` keeps
`absorbed = 1` while `Squeeze` resets it to 0, so the two post-states
differ (and a second `Finalize` would permute again). -/
theorem claim_C2_counterexample :
    ((Hasher.Finalize (Hasher.mk (St3.mk Fr.Zero Fr.Zero Fr.Zero) 1)).2).absorbed = 1 ∧
    ((Hasher.Squeeze (Hasher.mk (St3.mk Fr.Zero Fr.Zero Fr.Zero) 1)).2).absorbed = 0 ∧
    (Hasher.Finalize (Hasher.mk (St3.mk Fr.Zero Fr.Zero Fr.Zero) 1)).2 ≠
      (Hasher.Squeeze (Hasher.mk (St3.mk Fr.Zero Fr.Zero Fr.Zero) 1)).2 := by
  refine ⟨rfl, rfl, fun hc => ?_⟩
  have h1 : (1 : Nat) = 0 := congrArg Hasher.absorbed hc
  exact Nat.one_ne_zero h1

/-- C2 (amended): `Finalize` and `Squeeze` agree on the returned element and
on the post-state's words, and both permute exactly when `absorbed > 0`; but
only `Squeeze` resets the `absorbed` counter to 0 (`Finalize` preserves it),
so only a second `Squeeze` is guaranteed to return the same value without
re-permuting. -/
theorem claim_C2_amended (h : Hasher) :
    (Hasher.Finalize h).1 = (Hasher.Squeeze h).1 ∧
    ((Hasher.Finalize h).2).state = ((Hasher.Squeeze h).2).state ∧
    ((Hasher.Squeeze h).2).absorbed = 0 ∧
    ((Hasher.Finalize h).2).absorbed = h.absorbed ∧
    (Hasher.Squeeze (Hasher.Squeeze h).2).1 = (Hasher.Squeeze h).1 := by
  obtain ⟨st, k⟩ := h
  show (Hasher.Finalize ⟨st, k⟩).1 = (Hasher.Squeeze ⟨st, k⟩).1 ∧
    ((Hasher.Finalize ⟨st, k⟩).2).state = ((Hasher.Squeeze ⟨st, k⟩).2).state ∧
    ((Hasher.Squeeze ⟨st, k⟩).2).absorbed = 0 ∧
    ((Hasher.Finalize ⟨st, k⟩).2).absorbed = k ∧
    (Hasher.Squeeze (Hasher.Squeeze ⟨st, k⟩).2).1 = (Hasher.Squeeze ⟨st, k⟩).1
  by_cases hab : 0 < k
  · have hs : Hasher.Squeeze ⟨st, k⟩ = ((ProductionPermutation st).x0,
        ⟨ProductionPermutation st, 0⟩) := by
      unfold Hasher.Squeeze; rw [if_pos hab]
    have hf : Hasher.Finalize ⟨st, k⟩ = ((ProductionPermutation st).x0,
        ⟨ProductionPermutation st, k⟩) := by
      unfold Hasher.Finalize; rw [if_pos hab]
    refine ⟨?_, ?_, ?_, ?_, ?_⟩
    · rw [hs, hf]
    · rw [hs, hf]
    · rw [hs]
    · rw [hf]
    · rw [hs]
      show (Hasher.Squeeze (Hasher.mk (ProductionPermutation st) 0)).1 =
        (ProductionPermutation st).x0
      unfold Hasher.Squeeze
      rw [if_neg (by omega : ¬((0 : Nat) < 0))]
  · have h0 : k = 0 := by omega
    have hs : Hasher.Squeeze ⟨st, k⟩ = (st.x0, ⟨st, k⟩) := by
      unfold Hasher.Squeeze; rw [if_neg hab]
    have hf : Hasher.Finalize ⟨st, k⟩ = (st.x0, ⟨st, k⟩) := by
      unfold Hasher.Finalize; rw [if_neg hab]
    refine ⟨?_, ?_, ?_, ?_, ?_⟩
    · rw [hs, hf]
    · rw [hs, hf]
    · rw [hs]; exact h0
    · rw [hf]
    · rw [hs]
      show (Hasher.Squeeze (Hasher.mk st k)).1 = st.x0
      rw [hs]

/-- C3: on canonical inputs (both below the modulus), `Fr.Mul` returns the
canonical representative of x·y·R⁻¹ mod r: the modulus is the stated prime,
`rInvNat` is the inverse of the radix 2^256 modulo r, the result is again
below r, and equals x·y·rInvNat mod r. -/
theorem claim_C3 (x y : Nat) (hx : x < rModulus) (hy : y < rModulus) :
    rModulus = 21888242871839275222246405745257275088548364400416034343698204186575808495617 ∧
    montgomeryR = 2 ^ 256 % rModulus ∧
    2 ^ 256 * rInvNat % rModulus = 1 ∧
    Fr.Mul x y < rModulus ∧
    Fr.Mul x y = x * y * rInvNat % rModulus := by
  have hx' : x < 2 ^ 256 := lt_trans hx rModulus_lt_pow
  exact ⟨rModulus_val, by decide, radix_mul_rInv, Fr.Mul_lt hx' hy, Fr.Mul_eq_fMul hx' hy⟩

/-- C3 witness at x = 2, y = 3. -/
theorem claim_C3_witness :
    (2 : Nat) < rModulus ∧ (3 : Nat) < rModulus ∧
    Fr.Mul 2 3 < rModulus ∧ Fr.Mul 2 3 = 2 * 3 * rInvNat % rModulus := by
  have h := claim_C3 2 3 (by decide) (by decide)
  exact ⟨by decide, by decide, h.2.2.2.1, h.2.2.2.2⟩

/-- C4: canonicity is an invariant.  Every constructor (`Zero`, `One`,
`FromUint64` on a 64-bit input, `FromBytes` on 32 bytes) returns a value
below the modulus, and every arithmetic operation (`Add`, `Sub`, `Neg`,
`Mul`, `Square`) preserves being below the modulus. -/
theorem claim_C4 (x y u : Nat) (data : List Nat)
    (hx : x < rModulus) (hy : y < rModulus) (hu : u < 2 ^ 64)
    (hlen : data.length = 32) (hdata : ∀ b ∈ data, b < 256) :
    Fr.Zero < rModulus ∧ Fr.One < rModulus ∧
    FromUint64 u < rModulus ∧ FromBytes data < rModulus ∧
    Fr.Add x y < rModulus ∧ Fr.Sub x y < rModulus ∧
    Fr.Neg x < rModulus ∧ Fr.Mul x y < rModulus ∧ Fr.Square x < rModulus :=
  ⟨rModulus_pos, montgomeryR_lt, FromUint64_lt u hu,
    FromBytes_lt data (bytesToNatBE_lt_pow data hlen hdata),
    Fr.Add_lt x y hx hy, Fr.Sub_lt x y hx hy, Fr.Neg_lt x hx,
    Fr.Mul_lt (lt_trans hx rModulus_lt_pow) hy, Fr.Square_lt x hx⟩

/-- C4 witness at x = 1, y = 2, u = 5 and the all-255 32-byte input. -/
theorem claim_C4_witness :
    Fr.Add 1 2 < rModulus ∧ FromBytes (List.replicate 32 255) < rModulus := by
  have h := claim_C4 1 2 5 (List.replicate 32 255) (by decide) (by decide)
    (by decide) (by decide) (by decide)
  exact ⟨h.2.2.2.2.1, h.2.2.2.1⟩

/-- C5: the permutation is exactly the schedule of 4 full rounds, then 56
partial rounds, then 4 full rounds, 64 entries in all, where every entry of
`applySchedule` applies the mixing layer exactly once; a partial round's
nonlinear part adds the round constant to word 0 only and raises word 0 only
to the 5th power, leaving the other words to the (never skipped) mixing
step, while a full round does so for all three words. -/
theorem claim_C5 :
    (∀ s : St3, ProductionPermutation s = applySchedule roundSchedule 0 s) ∧
    roundSchedule.length = TOTAL_ROUNDS ∧ TOTAL_ROUNDS = 64 ∧
    roundSchedule.take 4 = List.replicate 4 RoundKind.fullRnd ∧
    (roundSchedule.drop 4).take 56 = List.replicate 56 RoundKind.partialRnd ∧
    roundSchedule.drop 60 = List.replicate 4 RoundKind.fullRnd ∧
    roundSchedule.count RoundKind.fullRnd = FULL_ROUNDS ∧
    roundSchedule.count RoundKind.partialRnd = PARTIAL_ROUNDS ∧
    (∀ k round s, applySchedule (k :: []) round s = applyMDS (nonlinearPart k round s)) ∧
    (∀ round s, nonlinearPart RoundKind.partialRnd round s =
      St3.mk (sBoxProd (Fr.Add s.x0 (roundConstants round 0))) s.x1 s.x2) ∧
    (∀ round s, nonlinearPart RoundKind.fullRnd round s =
      St3.mk (sBoxProd (Fr.Add s.x0 (roundConstants round 0)))
        (sBoxProd (Fr.Add s.x1 (roundConstants round 1)))
        (sBoxProd (Fr.Add s.x2 (roundConstants round 2)))) :=
  ⟨perm_eq_schedule, by decide, by decide, by decide, by decide, by decide,
    by decide, by decide, fun k round s => rfl, fun round s => rfl, fun round s => rfl⟩

/-- C6: serialisation round trip.  For a canonical element,
`FromBytes (ToBytes32 x) = x`; and for any 32-byte big-endian input -
including those whose integer value is at least the modulus - `FromBytes`
accepts the input and returns the element representing the value reduced
modulo r (`Fr.toValue` maps a Montgomery residue to the field value it
represents). -/
theorem claim_C6 (f : Nat) (data : List Nat) (hf : f < rModulus)
    (hlen : data.length = 32) (hb : ∀ b ∈ data, b < 256) :
    FromBytes (Fr.ToBytes32 f) = f ∧
    FromBytes data < rModulus ∧
    Fr.toValue (FromBytes data) = bytesToNatBE data % rModulus := by
  obtain ⟨h1, h2⟩ := FromBytes_value data hlen hb
  exact ⟨roundTrip_FromBytes f hf, h1, h2⟩

/-- C6 witness at f = 1 and the all-255 32-byte input (whose value exceeds
the modulus). -/
theorem claim_C6_witness :
    FromBytes (Fr.ToBytes32 1) = 1 ∧
    Fr.toValue (FromBytes (List.replicate 32 255)) =
      bytesToNatBE (List.replicate 32 255) % rModulus := by
  have h := claim_C6 1 (List.replicate 32 255) (by decide) (by decide) (by decide)
  exact ⟨h.1, h.2.2⟩

/-- C7: `Absorb` adds the element into `state[absorbed]` and increments the
counter; exactly when the counter reaches the rate 2 it permutes the full
three-word state and resets the counter, so the counter stays below 2 and
the state stays canonical. -/
theorem claim_C7 (h : Hasher) (e : Nat) (hst : StCanon h.state) (he : e < rModulus)
    (hab : h.absorbed < 2) :
    (h.absorbed = 0 →
      Hasher.Absorb h e =
        ⟨St3.mk (Fr.Add h.state.x0 e) h.state.x1 h.state.x2, 1⟩) ∧
    (h.absorbed = 1 →
      Hasher.Absorb h e =
        ⟨ProductionPermutation (St3.mk h.state.x0 (Fr.Add h.state.x1 e) h.state.x2), 0⟩) ∧
    (Hasher.Absorb h e).absorbed < 2 ∧
    StCanon (Hasher.Absorb h e).state := by
  have hc := Absorb_canon h e hst he hab
  refine ⟨?_, ?_, ?_, hc.1⟩
  · intro h0
    simp only [Hasher.Absorb, h0, stGet, stSet]
    rw [if_neg (by omega : ¬((2 : Nat) ≤ 0 + 1))]
  · intro h1
    simp only [Hasher.Absorb, h1, stGet, stSet]
    rw [if_pos (by omega : (2 : Nat) ≤ 1 + 1)]
  · rw [hc.2]
    exact Nat.mod_lt _ (by omega)

/-- C7 witness: absorbing `Zero` into a fresh hasher leaves the counter at 1
and the state canonical. -/
theorem claim_C7_witness :
    Hasher.Absorb NewHasher Fr.Zero =
      ⟨St3.mk (Fr.Add NewHasher.state.x0 Fr.Zero) NewHasher.state.x1 NewHasher.state.x2, 1⟩ ∧
    (Hasher.Absorb NewHasher Fr.Zero).absorbed < 2 := by
  have h := claim_C7 NewHasher Fr.Zero zeroState_canon rModulus_pos (by decide)
  exact ⟨h.1 rfl, h.2.2.1⟩

/-- C8: the 4-limb modulus constant of the arithmetic equals the stated
decimal integer. -/
theorem claim_C8 :
    rModulus = limbsToNat rModulusLimbs ∧
    limbsToNat rModulusLimbs =
      21888242871839275222246405745257275088548364400416034343698204186575808495617 :=
  ⟨rfl, by decide⟩

/-- C9: `HashBytes` never fails.  For every domain tag and every list of
byte chunks it returns `ok` with a 32-byte digest; its error channel is
unreachable. -/
theorem claim_C9 (tag : Nat) (data : List (List Nat)) :
    ∃ out : List Nat, HashBytes tag data = Except.ok out ∧ out.length = 32 := by
  refine ⟨Fr.ToBytes32 (Hasher.Finalize
    (data.foldl absorbChunk (Hasher.Absorb NewHasher (FromUint64 tag)))).1, rfl, ?_⟩
  exact natToBytesBE_length 32 _

/-- C10: appending one `Zero` to an odd-length canonical input does not
change the digest: the odd-length input leaves one pending slot, and
absorbing `Zero` into it adds nothing before the same final permutation. -/
theorem claim_C10 (es : List Nat) (hes : ∀ e ∈ es, e < rModulus)
    (hodd : es.length % 2 = 1) :
    Hash es = Hash (es ++ [Fr.Zero]) := by
  have hne1 : ¬(es.length = 0) := by omega
  have hne2 : ¬((es ++ [Fr.Zero]).length = 0) := by simp
  obtain ⟨hstc, habc⟩ := AbsorbMany_canon es NewHasher zeroState_canon (by decide) hes
  have hab1 : (Hasher.AbsorbMany NewHasher es).absorbed = 1 := by
    rw [habc, show NewHasher.absorbed = 0 from rfl]
    omega
  have key := Finalize_absorb_zero (Hasher.AbsorbMany NewHasher es) hstc hab1
  have e1 : Hash es = (Hasher.Finalize (Hasher.AbsorbMany NewHasher es)).1 := by
    unfold Hash
    rw [if_neg hne1]
  have e2 : Hash (es ++ [Fr.Zero]) =
      (Hasher.Finalize (Hasher.Absorb (Hasher.AbsorbMany NewHasher es) Fr.Zero)).1 := by
    unfold Hash
    rw [if_neg hne2]
    unfold Hasher.AbsorbMany
    rw [List.foldl_append]
    rfl
  rw [e1, e2]
  exact key.symm

/-- C10 witness at the one-element input `[Zero]`. -/
theorem claim_C10_witness : Hash [Fr.Zero] = Hash ([Fr.Zero] ++ [Fr.Zero]) :=
  claim_C10 [Fr.Zero] (by decide) (by decide)
